import Mathlib

set_option maxRecDepth 8000

/-!
Shallow embedding of the kilwatt-data-automation spreadsheet pipeline
(`excel_processor.py`, `transformer.py`, `appender.py`, `filtration.py`):
cell values, the Python string helpers the scripts use, pandas DataFrame
filtering/mapping, and openpyxl worksheet appends, together with theorems
about the Row Filter, Column Resolver, Schema Mapper and Append Engine.
-/

/-- A spreadsheet / pandas cell value.  `vNone` stands for both Python
`None` and pandas `NaN` (the scripts treat them alike in every consumed
position); `vFloat` models a Python float by a rational; `vDate` models a
`datetime`/`date` object by its Excel serial number. -/
inductive Value where
  | vNone : Value
  | vStr : String → Value
  | vInt : Int → Value
  | vFloat : Rat → Value
  | vDate : Rat → Value
deriving DecidableEq, Repr

/-- Python whitespace test used by `str.strip()` (ASCII fragment). -/
def pyWsChar (c : Char) : Bool := c = ' ' || c = '\t' || c = '\n' || c = '\r'

/-- `str.strip()` on the character list. -/
def pyStripL (l : List Char) : List Char :=
  ((l.dropWhile pyWsChar).reverse.dropWhile pyWsChar).reverse

/-- `str.strip()`. -/
def pyStrip (s : String) : String := ⟨pyStripL s.data⟩

/-- `str.lower()` (ASCII fragment). -/
def pyLower (s : String) : String := ⟨s.data.map Char.toLower⟩

/-- Python `str()` on a cell value.  Python prints floats in decimal and
datetimes as ISO timestamps; the scripts only ever compare the result
(stripped/lowered) against header or product words and extract its first
digit run, so floats are rendered from the rational (their digit runs are
never consumed) and datetimes by a representative ISO string whose first
digit run is a four-digit year, as for every serial openpyxl produces. -/
def pyStr : Value → String
  | .vNone => "None"
  | .vStr s => s
  | .vInt n => toString n
  | .vFloat q => toString q
  | .vDate _ => "1900-01-01 00:00:00"

def isDigitB (c : Char) : Bool := '0' ≤ c && c ≤ '9'

def digitsToNat (l : List Char) : Nat :=
  l.foldl (fun a c => 10 * a + (c.toNat - '0'.toNat)) 0

/-- First maximal digit run of a string: model of `re.search(r"(\d+)", s)`
followed by `int(m.group(1))`. -/
def firstDigitRun : List Char → Option Nat
  | [] => none
  | c :: t =>
    if isDigitB c then some (digitsToNat ((c :: t).takeWhile isDigitB))
    else firstDigitRun t

/-- Python `int()` on a float: truncation toward zero. -/
def ratTrunc (q : Rat) : Int := if 0 ≤ q then q.floor else -((-q).floor)

/-- Python `str.isdigit()` (ASCII fragment): nonempty, all digits. -/
def pyIsDigitStr (l : List Char) : Bool := !l.isEmpty && l.all isDigitB

/-- Model of Python `float(str)`: surrounding whitespace, an optional sign,
digits with an optional decimal point, the whole string consumed.
Exponent and infinity forms are not modelled; no script consumes them. -/
def pyParseFloat (s : String) : Option Rat :=
  let t := pyStripL s.data
  let p : Rat × List Char :=
    match t with
    | '-' :: u => (-1, u)
    | '+' :: u => (1, u)
    | u => (1, u)
  let ip := p.2.takeWhile isDigitB
  let rest := p.2.dropWhile isDigitB
  match rest with
  | [] => if ip.isEmpty then none else some (p.1 * (digitsToNat ip : Rat))
  | '.' :: fr =>
    let fp := fr.takeWhile isDigitB
    if (fr.dropWhile isDigitB).isEmpty ∧ !(ip.isEmpty && fp.isEmpty) then
      some (p.1 * ((digitsToNat ip : Rat) + (digitsToNat fp : Rat) / (10 : Rat) ^ fp.length))
    else none
  | _ => none

/-- Python `int(str)`: strips whitespace, optional sign, digits only. -/
def pyParseInt (s : String) : Option Int :=
  match pyStripL s.data with
  | '-' :: u => if pyIsDigitStr u then some (-(digitsToNat u : Int)) else none
  | '+' :: u => if pyIsDigitStr u then some ((digitsToNat u : Int)) else none
  | u => if pyIsDigitStr u then some ((digitsToNat u : Int)) else none

def TARGET_TERMS : List Int := [12, 24, 36, 48, 60]

/-- `parse_term_to_int` from `excel_processor.py` / `transformer.py`:
`None`/`NaN` rejected; ints kept; floats kept when whole; strings via
`isdigit` or the first digit run of the stripped string.  A datetime falls
into the string branch, where the first digit run of `str(val)` is its
four-digit year. -/
def parse_term_to_int : Value → Option Int
  | .vNone => none
  | .vInt n => some n
  | .vFloat q => if q.den = 1 then some q.num else none
  | v =>
    let s := pyStripL (pyStr v).data
    if pyIsDigitStr s then some (digitsToNat s)
    else (firstDigitRun s).map Int.ofNat

def BASE_COLS : List String :=
  ["Start Month", "State", "Utility", "Congestion Zone", "Load Factor",
   "Term", "Product", "0-200,000"]

/-- A pandas DataFrame: named columns and rows of cell values.  The row at
list position `i` carries the index label `i` (all sources are read with
the default `RangeIndex`). -/
structure DF where
  cols : List String
  rows : List (List Value)
deriving DecidableEq, Repr

/-- Position of the first column named `x` (pandas label lookup). -/
def colIdx : List String → String → Nat
  | [], _ => 0
  | c :: t, x => if c = x then 0 else colIdx t x + 1

/-- Value of column `c` in row `r` of `df`. -/
def dfGet (df : DF) (c : String) (r : List Value) : Value :=
  r.getD (colIdx df.cols c) .vNone

/-- One entry of the `Product == 'fixed price'` boolean mask:
`astype(str).str.strip().str.lower().eq('fixed price')`. -/
def prodOK (df : DF) (pc : String) (r : List Value) : Bool :=
  pyLower (pyStrip (pyStr (dfGet df pc r))) == "fixed price"

/-- One entry of the term mask: `map(parse_term_to_int).isin(TARGET_TERMS)`
(a `None` result is never in the set). -/
def termOK (df : DF) (tc : String) (r : List Value) : Bool :=
  match parse_term_to_int (dfGet df tc r) with
  | some t => TARGET_TERMS.contains t
  | none => false

/-- `next((col for col in df.columns if col.strip().lower() in names), None)`. -/
def findNamedCol (df : DF) (names : List String) : Option String :=
  df.cols.find? (fun c => names.contains (pyLower (pyStrip c)))

/-- `filter_sheet` from `excel_processor.py` / `transformer.py`:
product/term column discovery, the two boolean masks, `df.loc[mask, cols]`
projection onto the `BASE_COLS` that are present. -/
def filter_sheet (df : DF) : DF :=
  match findNamedCol df ["product", "products"], findNamedCol df ["term", "terms"] with
  | some pc, some tc =>
    let prodMask := df.rows.map (prodOK df pc)
    let termMask := df.rows.map (termOK df tc)
    let cols := BASE_COLS.filter (fun c => df.cols.contains c)
    let kept := ((df.rows.zip (prodMask.zip termMask)).filter
      (fun p => p.2.1 && p.2.2)).map (fun p => cols.map (fun c => dfGet df c p.1))
    ⟨cols, kept⟩
  | _, _ => ⟨BASE_COLS, []⟩

def isAlnumLower (c : Char) : Bool := ('a' ≤ c && c ≤ 'z') || ('0' ≤ c && c ≤ '9')

/-- `normalize_column_name` / `norm`: strip, lowercase, delete every
character outside `[a-z0-9]` (`re.sub(r"[^a-z0-9]", "", ...)`). -/
def normalize_column_name (s : String) : String :=
  ⟨((pyStripL s.data).map Char.toLower).filter isAlnumLower⟩

/-- Prefix test on character lists. -/
def isPrefixL : List Char → List Char → Bool
  | [], _ => true
  | _ :: _, [] => false
  | a :: as, b :: bs => a == b && isPrefixL as bs

/-- Python `in` on strings: `pat` occurs as a contiguous substring. -/
def containsSub (pat : List Char) : List Char → Bool
  | [] => isPrefixL pat []
  | c :: t => isPrefixL pat (c :: t) || containsSub pat t

/-- Python dict insertion `m[k] = v`: overwrites an existing key in place,
else appends (insertion order preserved, as `dict` guarantees). -/
def insertNorm (m : List (String × String)) (k v : String) : List (String × String) :=
  if m.any (fun p => p.1 == k) then
    m.map (fun p => if p.1 == k then (k, v) else p)
  else m ++ [(k, v)]

/-- `norm_map = {normalize_column_name(col): col for col in df.columns}`. -/
def buildNormMap (cols : List String) : List (String × String) :=
  cols.foldl (fun m c => insertNorm m (normalize_column_name c) c) []

def hasKey (m : List (String × String)) (k : String) : Bool :=
  m.any (fun p => p.1 == k)

def lookupNorm (m : List (String × String)) (k : String) : Option String :=
  (m.find? (fun p => p.1 == k)).map (fun p => p.2)

/-- `find_column` from `transformer.py` (the same code appears as `get_col`
inside `hda_matrix_to_master_cols`): exact normalized matches tried in
candidate order first, then, when `allowContains`, map entries (in
insertion order) whose normalized name contains some candidate's
normalization. -/
def find_column (cols : List String) (cands : List String) (allowContains : Bool) :
    Option String :=
  match cands.findSome? (fun cand =>
      lookupNorm (buildNormMap cols) (normalize_column_name cand)) with
  | some c => some c
  | none =>
    if allowContains then
      (buildNormMap cols).findSome? (fun p =>
        if cands.any (fun cand => containsSub (normalize_column_name cand).data p.1.data)
        then some p.2 else none)
    else none

/-- Python truthiness of a cell value, for `text or ''`. -/
def pyFalsy : Value → Bool
  | .vNone => true
  | .vStr s => s == ""
  | .vInt n => n == 0
  | .vFloat q => q == 0
  | .vDate _ => false

/-- Suffix test on character lists (Python `str.endswith`). -/
def isSuffixL (a l : List Char) : Bool := isPrefixL a.reverse l.reverse

/-- The three load-factor phrases tested by `'... Load Factor' in s`. -/
def LOAD_FACTOR_WORDS : List String :=
  ["Low Load Factor", "Medium Load Factor", "High Load Factor"]

/-- Suffix loop of `parse_zone_from_description` on the stripped text: the
first of the three space-prefixed load-factor suffixes found is removed
(`s[:-len(token)]`; the literals 16, 19, 17 are the token lengths). -/
def parse_zone_core (s : List Char) : String :=
  if isSuffixL " Low Load Factor".data s then ⟨s.take (s.length - 16)⟩
  else if isSuffixL " Medium Load Factor".data s then ⟨s.take (s.length - 19)⟩
  else if isSuffixL " High Load Factor".data s then ⟨s.take (s.length - 17)⟩
  else ⟨s⟩

/-- `parse_zone_from_description` from `transformer.py` (the same code is
`parse_zone` inside `hda_matrix_to_master_cols`): `str(text or '').strip()`,
then the suffix loop. -/
def parse_zone_from_description (v : Value) : String :=
  parse_zone_core (pyStripL (pyStr (if pyFalsy v then .vStr "" else v)).data)

/-- Containment chain of `parse_load_factor_from_description` on the
stripped text, tested in the order Low, Medium, High. -/
def parse_lf_core (s : List Char) : String :=
  if containsSub "Low Load Factor".data s then "LOW"
  else if containsSub "Medium Load Factor".data s then "MED"
  else if containsSub "High Load Factor".data s then "HIGH"
  else ""

/-- `parse_load_factor_from_description` (= `parse_lf`):
`str(text or '').strip()`, then the containment chain. -/
def parse_load_factor_from_description (v : Value) : String :=
  parse_lf_core (pyStripL (pyStr (if pyFalsy v then .vStr "" else v)).data)

/-- An openpyxl cell: cached value, number format, horizontal alignment
(only `right` is ever set, on the REP1 column). -/
structure Cell where
  val : Value
  numFmt : String
  alignRight : Bool
deriving DecidableEq, Repr

/-- A fresh openpyxl cell: empty value, `'General'` format. -/
def Cell.blank : Cell := ⟨.vNone, "General", false⟩

/-- An openpyxl worksheet: `max_row` and the (1-based) cell grid; cells
never written read as `Cell.blank`, as openpyxl materialises them. -/
structure Ws where
  maxRow : Nat
  cells : Nat → Nat → Cell

/-- `ws.cell(row=r, column=c, value=v)`. -/
def setVal (ws : Ws) (r c : Nat) (v : Value) : Ws where
  maxRow := max ws.maxRow r
  cells := fun r' c' =>
    if r' = r ∧ c' = c then { ws.cells r' c' with val := v } else ws.cells r' c'

/-- `cell.number_format = fmt`. -/
def setFmt (ws : Ws) (r c : Nat) (fmt : String) : Ws where
  maxRow := max ws.maxRow r
  cells := fun r' c' =>
    if r' = r ∧ c' = c then { ws.cells r' c' with numFmt := fmt } else ws.cells r' c'

/-- `cell.alignment = Alignment(horizontal='right')`. -/
def setAlignRight (ws : Ws) (r c : Nat) : Ws where
  maxRow := max ws.maxRow r
  cells := fun r' c' =>
    if r' = r ∧ c' = c then { ws.cells r' c' with alignRight := true } else ws.cells r' c'

/-- `v in (None, '')`. -/
def isEmptyV : Value → Bool
  | .vNone => true
  | .vStr s => s == ""
  | _ => false

/-- `find_first_blank_row` from `excel_processor.py`: the first row in
`range(2, max_row + 1)` whose column-A cell is `None`/`''`, else
`max_row + 1`.  (`append_from_template` and
`append_filtered_dataframe_to_master` inline the identical scan.) -/
def find_first_blank_row (ws : Ws) : Nat :=
  match (List.range' 2 (ws.maxRow - 1)).find? (fun r => isEmptyV (ws.cells r 1).val) with
  | some r => r
  | none => ws.maxRow + 1

/-- `int(v)` for a cell holding an `int` or `float`
(`isinstance(v, (int, float))`); other values contribute nothing. -/
def numTrunc : Value → Option Int
  | .vInt n => some n
  | .vFloat q => some (ratTrunc q)
  | _ => none

/-- The `int(v)` contributions of column A, rows `2..max_row`. -/
def truncIds (ws : Ws) : List Int :=
  (List.range' 2 (ws.maxRow - 1)).filterMap (fun r => numTrunc (ws.cells r 1).val)

/-- `get_next_id` from `excel_processor.py`: running
`if vi > max_id: max_id = vi` over column A starting from 0, plus one.
(`append_from_template` inlines the identical scan.) -/
def get_next_id (ws : Ws) : Int :=
  (truncIds ws).foldl (fun m v => if v > m then v else m) 0 + 1

/-- Modelled from the claim's words (C2): one plus the maximum
integer-valued column-A cell in rows `2..max_row` (ints, and floats whose
value is a whole number), 1 when there is none. -/
def specNextId (ws : Ws) : Int :=
  (((List.range' 2 (ws.maxRow - 1)).filterMap (fun r =>
      match (ws.cells r 1).val with
      | .vInt n => some n
      | .vFloat q => if q.den = 1 then some q.num else none
      | _ => none)).foldl (fun m v => if v > m then v else m) 0) + 1

/-- `last_data_row` (`appender.py` / `filtration.py` / `excel_processor.py`):
scanning from the bottom, the first row with any non-empty cell in columns
`1..scan_cols`, else 0. -/
def last_data_row (ws : Ws) (scanCols : Nat) : Nat :=
  match (List.range' 1 ws.maxRow).reverse.find? (fun r =>
      (List.range' 1 scanCols).any (fun c => !isEmptyV (ws.cells r c).val)) with
  | some r => r
  | none => 0

/-- `MASTER_HEADERS` (module level in `excel_processor.py`): the B..Q
headers in master order. -/
def MASTER_HEADERS : List String :=
  ["Price_Date", "Date", "Zone", "Load", "REP1", "Term", "Min_MWh", "Max_MWh",
   "Daily_No_Ruc", "RUC_Nodal", "Daily", "Com_Disc", "HOA_Disc", "Broker_Fee",
   "Meter_Fee", "Max_Meters"]

/-- `master_cols` of the schema mappers: the 17 master columns A..Q. -/
def MASTER_COLS : List String :=
  ["ID", "Price_Date", "Date", "Zone", "Load", "REP1", "Term", "Min_MWh", "Max_MWh",
   "Daily_No_Ruc", "RUC_Nodal", "Daily", "Com_Disc", "HOA_Disc", "Broker_Fee",
   "Meter_Fee", "Max_Meters"]

/-- `MASTER_FORMATS` (keyed by column letter A..Q in the source), as a
function of the 1-based column index. -/
def masterFormat : Nat → String
  | 2 => "mm-dd-yy"
  | 3 => "mm-dd-yy"
  | 7 => "* #,##0;* (#,##0);* -00"
  | 8 => "* #,##0;* (#,##0);* -00"
  | 10 => "$#,##0.00;($#,##0.00)"
  | 11 => "$#,##0.00"
  | 12 => "$#,##0.00"
  | 13 => "$* #,##0.00;$* (#,##0.00);$* -00"
  | 14 => "$* #,##0.00;$* (#,##0.00);$* -00"
  | 15 => "$#,##0.00"
  | 16 => "$* #,##0.00;$* (#,##0.00);$* -00"
  | 17 => "#,##0"
  | _ => "General"

/-- Column loop of `apply_master_formats`: set the master number format on
each listed column of `row` (every entry of `MASTER_FORMATS` is non-empty,
so the `if fmt:` guard always passes) and right-align column F (6). -/
def applyFmtCols (row : Nat) : Ws → List Nat → Ws
  | ws, [] => ws
  | ws, c :: t =>
    let w1 := setFmt ws row c (masterFormat c)
    let w2 := if c = 6 then setAlignRight w1 row c else w1
    applyFmtCols row w2 t

/-- `apply_master_formats` from `excel_processor.py`: formats for columns
`range(1, 18)` of one row. -/
def apply_master_formats (ws : Ws) (row : Nat) : Ws :=
  applyFmtCols row ws (List.range' 1 17)

/-- String cells are stripped while gathering template rows. -/
def stripIfStr : Value → Value
  | .vStr s => .vStr (pyStrip s)
  | v => v

/-- Source rows gathered by `append_from_template`: for each row below the
header, the cells of the mapped source columns in `MASTER_HEADERS` order
(strings stripped); rows whose mapped cells are all `None`/`''` are
skipped. -/
def gatherTemplateRows (wsSrc : Ws) (srcMap : String → Nat) (headerRow : Nat) :
    List (List Value) :=
  (List.range' (headerRow + 1) (wsSrc.maxRow - headerRow)).filterMap (fun r =>
    let values := MASTER_HEADERS.map (fun h => stripIfStr (wsSrc.cells r (srcMap h)).val)
    if values.all isEmptyV then none else some values)

/-- `for i, val in enumerate(values): ws.cell(row, i + base, val)` compiled
with an explicit column counter. -/
def writeVals (row : Nat) : Ws → Nat → List Value → Ws
  | ws, _, [] => ws
  | ws, col, v :: t => writeVals row (setVal ws row col v) (col + 1) t

/-- Row loop of `append_from_template`: ID in column A, master formats,
then the gathered values into B..Q; `write_row` and `next_id` advance by
one per appended row. -/
def templateRows (fbr : Nat) (nid : Int) : Ws → Nat → List (List Value) → Ws
  | ws, _, [] => ws
  | ws, i, vals :: t =>
    let dstRow := fbr + i
    let w1 := setVal ws dstRow 1 (.vInt (nid + (i : Int)))
    let w2 := apply_master_formats w1 dstRow
    let w3 := writeVals dstRow w2 2 vals
    templateRows fbr nid w3 (i + 1) t

/-- `append_from_template` from `excel_processor.py` (destination writes;
`srcMap` is the header mapping `build_source_mapping` produced, `headerRow`
the detected header row; the save and backup I/O is outside the cell
model). -/
def append_from_template (wsSrc : Ws) (srcMap : String → Nat) (headerRow : Nat)
    (wsDst : Ws) : Ws :=
  let nid := get_next_id wsDst
  let fbr := find_first_blank_row wsDst
  templateRows fbr nid wsDst 0 (gatherTemplateRows wsSrc srcMap headerRow)

/-- Pandas `series * 100` on one object cell.  Strings repeat (Python
sequence repetition); a datetime would raise `TypeError` in the source and
is left unchanged here — no theorem exercises that case. -/
def mul100 : Value → Value
  | .vInt n => .vInt (100 * n)
  | .vFloat q => .vFloat (100 * q)
  | .vStr s => .vStr (String.join (List.replicate 100 s))
  | .vNone => .vNone
  | .vDate q => .vDate q

/-- One row of the two column assignments
`master_df['Daily_No_Ruc'] *= 100; master_df['Daily'] *= 100`, by column
position (`j1`, `j2` are the positions of the two columns). -/
def scaleRow (j1 j2 : Nat) : Nat → List Value → List Value
  | _, [] => []
  | j, v :: t => (if j = j1 ∨ j = j2 then mul100 v else v) :: scaleRow j1 j2 (j + 1) t

/-- The `* 100` rescaling of the two price columns in `a`. -/
def scaleDaily (df : DF) : DF :=
  ⟨df.cols, df.rows.map
    (scaleRow (colIdx df.cols "Daily_No_Ruc") (colIdx df.cols "Daily") 0)⟩

/-- `for col_idx, header in enumerate(MASTER_HEADERS): if header in
row_dict: ws.cell(row, col_idx + 2, row_dict[header])`, with an explicit
column counter. -/
def writeHeaderVals (df1 : DF) (rowVals : List Value) (row : Nat) :
    Ws → Nat → List String → Ws
  | ws, _, [] => ws
  | ws, col, h :: t =>
    let w1 := if df1.cols.contains h then setVal ws row col (dfGet df1 h rowVals) else ws
    writeHeaderVals df1 rowVals row w1 (col + 1) t

/-- Row loop of `a`: sequence ID in column A (the frame's own ID column is
ignored), master formats, then the headers present in the frame into
B..Q. -/
def aRows (df1 : DF) (fbr : Nat) (nid : Int) : Ws → Nat → List (List Value) → Ws
  | ws, _, [] => ws
  | ws, i, rv :: t =>
    let dstRow := fbr + i
    let w1 := setVal ws dstRow 1 (.vInt (nid + (i : Int)))
    let w2 := apply_master_formats w1 dstRow
    let w3 := writeHeaderVals df1 rv dstRow w2 2 MASTER_HEADERS
    aRows df1 fbr nid w3 (i + 1) t

/-- `a` from `excel_processor.py` (destination writes): empty frames are a
no-op; the two price columns are scaled by 100 up front; rows are appended
at the first blank ID row with sequential IDs (the `first_blank_row == 0`
guard is dead — the scan never returns 0 — but kept).  Backup and save I/O
are outside the cell model. -/
def a (df : DF) (wsDst : Ws) : Ws :=
  if df.rows.isEmpty then wsDst
  else
    let df1 := scaleDaily df
    let fbr := find_first_blank_row wsDst
    if fbr = 0 then wsDst
    else aRows df1 fbr (get_next_id wsDst) wsDst 0 df1.rows

/-- `append_master_formatted_dataframe_to_master`: alias of `a`. -/
def append_master_formatted_dataframe_to_master (df : DF) (wsDst : Ws) : Ws :=
  a df wsDst

/-- `isinstance(val, (int, float)) and 20000 < float(val) < 60000`, with
the converted value (`excel_from_serial`) and the `is_date` flag, as in
`appender.py` / `filtration.py`. -/
def convSerial : Value → Value × Bool
  | .vInt n => if 20000 < n ∧ n < 60000 then (.vDate (n : Int), true) else (.vInt n, false)
  | .vFloat q => if 20000 < q ∧ q < 60000 then (.vDate q, true) else (.vFloat q, false)
  | v => (v, false)

/-- `gather_source_rows` (`appender.py` / `filtration.py`; the identical
loop opens `append_l_aa`): columns L..AA (12..27) of each row from 2 on,
kept when any value is non-empty. -/
def gather_source_rows (ws : Ws) : List (List Value) :=
  (List.range' 2 (ws.maxRow - 1)).filterMap (fun r =>
    let vals := (List.range' 12 16).map (fun c => (ws.cells r c).val)
    if vals.any (fun v => !isEmptyV v) then some vals else none)

/-- Swap indices 3 and 4 (source columns O and P within L..AA) when the row
has at least 5 values. -/
def swapOP (l : List Value) : List Value :=
  if 5 ≤ l.length then (l.set 3 (l.getD 4 .vNone)).set 4 (l.getD 3 .vNone) else l

/-- `int(prev) if prev is not None and str(prev).strip() != '' else 0`,
with any conversion failure yielding 0 (the `except` branch). -/
def prevSeq : Value → Int
  | .vNone => 0
  | .vInt n => n
  | .vFloat q => ratTrunc q
  | .vStr s => if pyStrip s = "" then 0 else (pyParseInt s).getD 0
  | .vDate _ => 0

/-- Cell loop of `appender.py main`: serial dates converted, written into
consecutive columns, date cells formatted `'mm/dd/yyyy'`. -/
def appWriteVals (row : Nat) : Ws → Nat → List Value → Ws
  | ws, _, [] => ws
  | ws, col, v :: t =>
    let cv := convSerial v
    let w1 := setVal ws row col cv.1
    let w2 := if cv.2 then setFmt w1 row col "mm/dd/yyyy" else w1
    appWriteVals row w2 (col + 1) t

/-- Row loop of `appender.py main`: column-A sequence from the previous
row, then the O/P-swapped values into B..Q. -/
def appenderRows (startRow : Nat) : Ws → Nat → List (List Value) → Ws
  | ws, _, [] => ws
  | ws, i, rv :: t =>
    let r := startRow + i
    let w1 :=
      if r = 1 then setVal ws 1 1 (.vInt 1)
      else setVal ws r 1 (.vInt (prevSeq (ws.cells (r - 1) 1).val + 1))
    let w2 := appWriteVals r w1 2 (swapOP rv)
    appenderRows startRow w2 (i + 1) t

/-- `appender.py main`: the on-disk destination after a run; `locked`
models a `PermissionError` raised by `wb_dst.save` (file open in Excel).
Every early return leaves the destination file untouched, and all cell
mutation is in-memory until the single save call. -/
def appender_main (locked : Bool) (wsSrc wsDst : Ws) : Ws :=
  let srcRows := gather_source_rows wsSrc
  if srcRows.isEmpty then wsDst
  else
    let lastRow := last_data_row wsDst 50
    let startRow := if 1 ≤ lastRow then lastRow + 1 else 1
    let wsNew := appenderRows startRow wsDst 0 srcRows
    if locked then wsDst else wsNew

/-- Cell loop of `filtration.py main`: serial dates converted, the format
captured from the last pre-existing data row applied (`dstFmt`), then date
cells forced to `'mm/dd/yyyy'`.  No O/P swap in this script. -/
def filtrWriteVals (dstFmt : Nat → String) (row : Nat) : Ws → Nat → List Value → Ws
  | ws, _, [] => ws
  | ws, col, v :: t =>
    let cv := convSerial v
    let w1 := setVal ws row col cv.1
    let w2 := setFmt w1 row col (dstFmt col)
    let w3 := if cv.2 then setFmt w2 row col "mm/dd/yyyy" else w2
    filtrWriteVals dstFmt row w3 (col + 1) t

/-- Row loop of `filtration.py main`. -/
def filtrationRows (dstFmt : Nat → String) (startRow : Nat) :
    Ws → Nat → List (List Value) → Ws
  | ws, _, [] => ws
  | ws, i, rv :: t =>
    let r := startRow + i
    let w1 :=
      if r = 1 then setVal ws 1 1 (.vInt 1)
      else setVal ws r 1 (.vInt (prevSeq (ws.cells (r - 1) 1).val + 1))
    let w2 := filtrWriteVals dstFmt r w1 2 rv
    filtrationRows dstFmt startRow w2 (i + 1) t

/-- The format dictionary of `filtration.py main`:
`{c: ws.cell(last_row, c).number_format for c in range(1, 20)}` when data
exists, else `'General'` everywhere; reads fall back to `'General'`
(`dst_formats.get(col, 'General')`). -/
def filtrFmt (wsDst : Ws) (lastRow : Nat) : Nat → String := fun c =>
  if 0 < lastRow then
    if 1 ≤ c ∧ c < 20 then (wsDst.cells lastRow c).numFmt else "General"
  else "General"

/-- `filtration.py main`: the on-disk destination after a run; `locked`
models a `PermissionError` on save. -/
def filtration_main (locked : Bool) (wsSrc wsDst : Ws) : Ws :=
  let srcRows := gather_source_rows wsSrc
  if srcRows.isEmpty then wsDst
  else
    let lastRow := last_data_row wsDst 50
    let startRow := if 1 ≤ lastRow then lastRow + 1 else 1
    let wsNew := filtrationRows (filtrFmt wsDst lastRow) startRow wsDst 0 srcRows
    if locked then wsDst else wsNew

/-- Value conversion of `append_l_aa`: serials in `(20000, 60000)` become
date-only values (`.date()` drops the time, i.e. the fractional part);
datetimes are coerced to dates; strings go through
`pd.to_datetime(..., errors='coerce')`, modelled by the parameter
`strToDate` (`none` = `NaT`, keep the string). -/
def convLAA (strToDate : String → Option Rat) : Value → Value
  | .vInt n => if 20000 < n ∧ n < 60000 then .vDate (n : Int) else .vInt n
  | .vFloat q => if 20000 < q ∧ q < 60000 then .vDate q.floor else .vFloat q
  | .vDate q => .vDate q.floor
  | .vStr s =>
    match strToDate (pyStrip s) with
    | some q => .vDate q.floor
    | none => .vStr s
  | .vNone => .vNone

/-- Cell loop of `append_l_aa`: converted values into consecutive columns
(the master formats were already applied to the whole row). -/
def laaWriteVals (strToDate : String → Option Rat) (row : Nat) :
    Ws → Nat → List Value → Ws
  | ws, _, [] => ws
  | ws, col, v :: t =>
    laaWriteVals strToDate row (setVal ws row col (convLAA strToDate v)) (col + 1) t

/-- Row loop of `append_l_aa`: column-A sequence, master formats for the
whole row, then the O/P-swapped converted values into B..Q. -/
def laaRows (strToDate : String → Option Rat) (startRow : Nat) :
    Ws → Nat → List (List Value) → Ws
  | ws, _, [] => ws
  | ws, i, rv :: t =>
    let r := startRow + i
    let w1 :=
      if r = 1 then setVal ws 1 1 (.vInt 1)
      else setVal ws r 1 (.vInt (prevSeq (ws.cells (r - 1) 1).val + 1))
    let w2 := apply_master_formats w1 r
    let w3 := laaWriteVals strToDate r w2 2 (swapOP rv)
    laaRows strToDate startRow w3 (i + 1) t

/-- `append_l_aa` from `excel_processor.py`: the on-disk destination after
a run; `locked` models a `PermissionError` on the final save. -/
def append_l_aa (strToDate : String → Option Rat) (locked : Bool)
    (wsSrc wsDst : Ws) : Ws :=
  let srcRows := gather_source_rows wsSrc
  if srcRows.isEmpty then wsDst
  else
    let lastRow := last_data_row wsDst 50
    let startRow := if 1 ≤ lastRow then lastRow + 1 else 1
    let wsNew := laaRows strToDate startRow wsDst 0 srcRows
    if locked then wsDst else wsNew

def desc_candidates : List String :=
  ["MatrixDescription", "Matrix Description", "Description", "Desc"]

def price_candidates : List String :=
  ["Price", "Price $", "Price($)", "Matrix Price", "Rate", "Base Price"]

def green_candidates : List String := ["GreenPrice", "Green Price"]

def term_candidates : List String :=
  ["TermCode", "Term", "Term Months", "Term_Months", "TermLength", "Term (months)"]

/-- Start-date candidates of `transform_to_master_format`. -/
def start_candidates_t : List String :=
  ["StartDate", "Start Date", "StartMonth", "Start Month", "Delivery Start",
   "First Delivery"]

/-- Start-date candidates of `hda_matrix_to_master_cols` (one extra). -/
def start_candidates_h : List String :=
  ["StartDate", "Start Date", "StartMonth", "Start Month", "Delivery Start",
   "First Delivery", "DeliveryStart"]

def zone_candidates : List String := ["Zone", "Congestion Zone"]

def lf_candidates : List String := ["Load Factor", "LoadFactor", "LF"]

def product_candidates : List String := ["Product", "Products"]

/-- `term_to_int` nested in the schema mappers: `int(float(v))` when that
succeeds, the result kept only when in `TARGET_TERMS`; on failure
(`except`), the first digit run of `str(v)`, kept under the same test. -/
def term_to_int (v : Value) : Option Int :=
  match (match v with
         | .vInt n => some n
         | .vFloat q => some (ratTrunc q)
         | .vStr s => (pyParseFloat s).map ratTrunc
         | _ => none) with
  | some iv => if TARGET_TERMS.contains iv then some iv else none
  | none =>
    match firstDigitRun (pyStr v).data with
    | some m => if TARGET_TERMS.contains (m : Int) then some (m : Int) else none
    | none => none

/-- `pd.to_numeric(col, errors='coerce')` on one cell (`vNone` = `NaN`;
datetimes never reach this in the mapped sources and coerce to `NaN`). -/
def toNumeric : Value → Value
  | .vInt n => .vInt n
  | .vFloat q => .vFloat q
  | .vStr s =>
    match pyParseFloat s with
    | some q => .vFloat q
    | none => .vNone
  | _ => .vNone

def isNoneV : Value → Bool
  | .vNone => true
  | _ => false

/-- Common body of `transform_to_master_format` (`transformer.py`) and
`hda_matrix_to_master_cols` (`excel_processor.py`); the two source
functions differ only in the start-date candidate list (and in resolving
two further columns, CreatedDate/TdspCode, that the body never uses).

`toDate` models `pd.to_datetime(..., errors='coerce').dt.date` on one cell
and `today` models `date.today()`.

The column assignments follow pandas index alignment: the product-filtered
frame keeps its original row labels while the output frame is indexed
`0..num_rows-1`, so output row `i` draws from input row label `i` when that
label survived the product mask, and gets `NaN` otherwise; the final
`out[out['Term'].notna()]` filter then drops every row whose term did not
resolve to a member of `TARGET_TERMS`. -/
def masterTransform (startCands : List String) (toDate : Value → Value)
    (today : Value) (df : DF) : DF :=
  let c_desc := find_column df.cols desc_candidates true
  let c_price := find_column df.cols price_candidates true
  let c_green := find_column df.cols green_candidates true
  let c_term := find_column df.cols term_candidates true
  let c_start := find_column df.cols startCands true
  let c_zone := find_column df.cols zone_candidates true
  let c_lf := find_column df.cols lf_candidates true
  let c_prod := find_column df.cols product_candidates true
  let mask : Nat → Bool := fun i =>
    match c_prod with
    | some pc => prodOK df pc (df.rows.getD i [])
    | none => true
  let numRows := ((List.range df.rows.length).filter mask).length
  let getc : Option String → Nat → Value := fun oc i =>
    match oc with
    | some cname => dfGet df cname (df.rows.getD i [])
    | none => .vNone
  let priceAllNa := ((List.range df.rows.length).filter mask).all
    (fun i => isNoneV (toNumeric (getc c_price i)))
  let priceVal : Nat → Value := fun i =>
    if priceAllNa ∧ c_green.isSome then toNumeric (getc c_green i)
    else toNumeric (getc c_price i)
  let zoneVal : Nat → Value := fun i =>
    match c_desc with
    | some dc => .vStr (parse_zone_from_description (dfGet df dc (df.rows.getD i [])))
    | none =>
      match c_zone with
      | some zc => .vStr (pyStr (dfGet df zc (df.rows.getD i [])))
      | none => .vStr ""
  let loadVal : Nat → Value := fun i =>
    match c_desc with
    | some dc =>
      .vStr (parse_load_factor_from_description (dfGet df dc (df.rows.getD i [])))
    | none =>
      match c_lf with
      | some lc => .vStr (pyStr (dfGet df lc (df.rows.getD i [])))
      | none => .vStr ""
  ⟨MASTER_COLS,
   if (c_price = none ∧ c_green = none) ∨ c_term = none ∨ c_start = none then []
   else if c_desc = none ∧ (c_zone = none ∧ c_lf = none) then []
   else if numRows = 0 then []
   else
     (List.range numRows).filterMap (fun i =>
       if mask i then
         match term_to_int (getc c_term i) with
         | some t =>
           some [Value.vNone, today, toDate (getc c_start i), zoneVal i, loadVal i,
                 .vStr "HUDSON", .vInt t, .vInt 0, .vInt 1000, priceVal i,
                 .vInt 0, priceVal i, .vInt 0, .vInt 0, .vInt 0, .vInt 0, .vInt 5]
         | none => none
       else none)⟩

/-- `transform_to_master_format` from `transformer.py`. -/
def transform_to_master_format (toDate : Value → Value) (today : Value)
    (df : DF) : DF :=
  masterTransform start_candidates_t toDate today df

/-- `hda_matrix_to_master_cols` from `excel_processor.py`. -/
def hda_matrix_to_master_cols (toDate : Value → Value) (today : Value)
    (df : DF) : DF :=
  masterTransform start_candidates_h toDate today df

/-- A one-row HDA-style frame used to exercise the schema mapper. -/
def dfC3 : DF :=
  ⟨["Description", "Price", "TermCode", "StartDate"],
   [[.vStr "Houston Low Load Factor", .vInt 70, .vInt 12, .vStr "2024-01-01"]]⟩

/-- The master row the mapper produces from `dfC3` (with `toDate` and
`today` both instantiated to `vNone`). -/
def rowC3 : List Value :=
  [.vNone, .vNone, .vNone, .vStr "Houston", .vStr "LOW", .vStr "HUDSON",
   .vInt 12, .vInt 0, .vInt 1000, .vInt 70, .vInt 0, .vInt 70,
   .vInt 0, .vInt 0, .vInt 0, .vInt 0, .vInt 5]

/-- The rational 79/10, written as an explicit reduced fraction so that it
evaluates by kernel reduction. -/
def ratSevenNine : Rat := ⟨79, 10, by decide, by decide⟩

/-- A two-row sheet whose only column-A entry is the non-whole float 7.9. -/
def wsC2 : Ws :=
  ⟨2, fun r c =>
    if r = 2 ∧ c = 1 then ⟨.vFloat ratSevenNine, "General", false⟩ else Cell.blank⟩

/-- A destination sheet: header row, ID 5 in A2, blank A3. -/
def wsW2 : Ws :=
  ⟨3, fun r c =>
    if r = 1 ∧ c = 1 then ⟨.vStr "ID", "General", false⟩
    else if r = 2 ∧ c = 1 then ⟨.vInt 5, "General", false⟩
    else Cell.blank⟩

/-- A template source sheet: one data row with 7 in column 12. -/
def wsSrcW : Ws :=
  ⟨2, fun r c => if r = 2 ∧ c = 12 then ⟨.vInt 7, "General", false⟩ else Cell.blank⟩

/-- The Excel serial 45000, in normal form so kernel reduction evaluates
it. -/
def ratSerial45000 : Rat := ⟨45000, 1, by decide, by decide⟩

/-- A source sheet whose one data row holds an actual datetime value in
column L and an int Excel serial in column M. -/
def wsC6src : Ws :=
  ⟨2, fun r c =>
    if r = 2 ∧ c = 12 then ⟨.vDate ratSerial45000, "General", false⟩
    else if r = 2 ∧ c = 13 then ⟨.vInt 45000, "General", false⟩
    else Cell.blank⟩

/-- `start_row = last_row + 1 if last_row >= 1 else 1`
(`appender.py` / `filtration.py` / `append_l_aa`). -/
def appendStartRow (wsDst : Ws) : Nat :=
  if 1 ≤ last_data_row wsDst 50 then last_data_row wsDst 50 + 1 else 1

/-- A source sheet with one data row whose L..AA cells hold their own
column numbers 12..27. -/
def wsSrcC8 : Ws :=
  ⟨2, fun r c =>
    if r = 2 ∧ 12 ≤ c ∧ c ≤ 27 then ⟨.vInt (c : Int), "General", false⟩ else Cell.blank⟩

/-- Aligning a row list with its own mask entries and filtering on the mask
conjunction is row filtering by the conjoined predicate. -/
theorem zip_mask_filter_map {α β : Type} (p q : α → Bool) (g : α → β) :
    ∀ rows : List α,
      ((rows.zip ((rows.map p).zip (rows.map q))).filter
        (fun x => x.2.1 && x.2.2)).map (fun x => g x.1)
      = (rows.filter (fun r => p r && q r)).map g := by
  intro rows
  induction rows with
  | nil => rfl
  | cons r t ih =>
    by_cases h : p r && q r <;>
      simp [List.zip_cons_cons, List.filter_cons, h, ih]

/-- C1 (Row Filter): when a product column and a term column are found,
`filter_sheet` returns exactly the rows whose product value strips/lowers
to `"fixed price"` and whose term value parses via `parse_term_to_int`
into `TARGET_TERMS = {12, 24, 36, 48, 60}`, projected onto the `BASE_COLS`
present, in order; when either column is missing it returns the empty
frame with the `BASE_COLS` columns. -/
theorem C1_row_filter (df : DF) :
    (∀ pc tc, findNamedCol df ["product", "products"] = some pc →
      findNamedCol df ["term", "terms"] = some tc →
      filter_sheet df =
        ⟨BASE_COLS.filter (fun c => df.cols.contains c),
         (df.rows.filter (fun r => prodOK df pc r && termOK df tc r)).map
           (fun r => (BASE_COLS.filter (fun c => df.cols.contains c)).map
             (fun c => dfGet df c r))⟩) ∧
    ((findNamedCol df ["product", "products"] = none ∨
      findNamedCol df ["term", "terms"] = none) →
      filter_sheet df = ⟨BASE_COLS, []⟩) := by
  constructor
  · intro pc tc hp ht
    unfold filter_sheet
    rw [hp, ht]
    simp only [DF.mk.injEq, true_and]
    exact zip_mask_filter_map (prodOK df pc) (termOK df tc)
      (fun r => (BASE_COLS.filter (fun c => df.cols.contains c)).map
        (fun c => dfGet df c r)) df.rows
  · intro h
    unfold filter_sheet
    rcases h with h | h
    · rw [h]
    · rw [h]
      cases findNamedCol df ["product", "products"] <;> rfl

def dfEx1 : DF :=
  ⟨["Product", "Term", "State"],
   [[.vStr "Fixed Price", .vInt 12, .vStr "TX"],
    [.vStr "Variable", .vInt 12, .vStr "OK"],
    [.vStr " fixed PRICE ", .vStr "36 months", .vStr "LA"],
    [.vStr "Fixed Price", .vInt 13, .vStr "NM"]]⟩

/-- Witness for C1 at a concrete frame: the hypotheses hold and the filter
keeps exactly the two fixed-price rows with terms 12 and 36. -/
theorem C1_row_filter_witness :
    filter_sheet dfEx1 =
      ⟨["State", "Term", "Product"],
       [[.vStr "TX", .vInt 12, .vStr "Fixed Price"],
        [.vStr "LA", .vStr "36 months", .vStr " fixed PRICE "]]⟩ :=
  ((C1_row_filter dfEx1).1 "Product" "Term" (by decide) (by decide)).trans (by decide)

theorem mem_insertNorm {m : List (String × String)} {k v : String} {p : String × String}
    (h : p ∈ insertNorm m k v) : p ∈ m ∨ p = (k, v) := by
  unfold insertNorm at h
  split at h
  · rcases List.mem_map.1 h with ⟨q, hq, he⟩
    by_cases hk : q.1 == k
    · simp only [hk, if_pos] at he
      exact Or.inr he.symm
    · simp only [hk, if_neg, Bool.false_eq_true, not_false_iff] at he
      exact Or.inl (he ▸ hq)
  · rcases List.mem_append.1 h with h1 | h1
    · exact Or.inl h1
    · simp only [List.mem_singleton] at h1
      exact Or.inr h1

theorem hasKey_insertNorm_of {m : List (String × String)} {k v k' : String}
    (h : hasKey m k' = true ∨ k' = k) : hasKey (insertNorm m k v) k' = true := by
  unfold hasKey insertNorm
  split
  · rename_i hrep
    rcases h with h | h
    · rcases List.any_eq_true.1 h with ⟨q, hq, hqk⟩
      apply List.any_eq_true.2
      by_cases hk : q.1 == k
      · refine ⟨(k, v), List.mem_map.2 ⟨q, hq, by simp [hk]⟩, ?_⟩
        have h1 : q.1 = k := by simpa using hk
        have h2 : q.1 = k' := by simpa using hqk
        simp [← h1, h2]
      · exact ⟨q, List.mem_map.2 ⟨q, hq, by simp [hk]⟩, hqk⟩
    · subst h
      rcases List.any_eq_true.1 hrep with ⟨q, hq, hqk⟩
      exact List.any_eq_true.2 ⟨(k', v), List.mem_map.2 ⟨q, hq, by simp [hqk]⟩, by simp⟩
  · apply List.any_eq_true.2
    rcases h with h | h
    · rcases List.any_eq_true.1 h with ⟨q, hq, hqk⟩
      exact ⟨q, List.mem_append.2 (Or.inl hq), hqk⟩
    · exact ⟨(k, v), List.mem_append.2 (Or.inr (by simp)), by simp [h]⟩

theorem buildNormMap_aux_mem :
    ∀ (cols : List String) (acc : List (String × String)) (p : String × String),
      p ∈ cols.foldl (fun m c => insertNorm m (normalize_column_name c) c) acc →
      p ∈ acc ∨ (p.2 ∈ cols ∧ normalize_column_name p.2 = p.1) := by
  intro cols
  induction cols with
  | nil => intro acc p h; exact Or.inl h
  | cons c t ih =>
    intro acc p h
    rcases ih _ p h with h1 | h1
    · rcases mem_insertNorm h1 with h2 | h2
      · exact Or.inl h2
      · subst h2
        exact Or.inr ⟨by simp, rfl⟩
    · exact Or.inr ⟨List.mem_cons_of_mem c h1.1, h1.2⟩

theorem buildNormMap_mem {cols : List String} {p : String × String}
    (h : p ∈ buildNormMap cols) : p.2 ∈ cols ∧ normalize_column_name p.2 = p.1 := by
  rcases buildNormMap_aux_mem cols [] p h with h1 | h1
  · simp at h1
  · exact h1

theorem buildNormMap_aux_hasKey :
    ∀ (cols : List String) (acc : List (String × String)) (k : String),
      (hasKey acc k = true ∨ ∃ c ∈ cols, normalize_column_name c = k) →
      hasKey (cols.foldl (fun m c => insertNorm m (normalize_column_name c) c) acc) k = true := by
  intro cols
  induction cols with
  | nil =>
    intro acc k h
    rcases h with h | h
    · exact h
    · simp at h
  | cons c t ih =>
    intro acc k h
    rcases h with h | h
    · exact ih _ k (Or.inl (hasKey_insertNorm_of (Or.inl h)))
    · rcases h with ⟨c0, hc0, hn⟩
      rcases List.mem_cons.1 hc0 with h2 | h2
      · subst h2
        exact ih _ k (Or.inl (hasKey_insertNorm_of (Or.inr hn.symm)))
      · exact ih _ k (Or.inr ⟨c0, h2, hn⟩)

theorem buildNormMap_hasKey {cols : List String} {c : String} (h : c ∈ cols) :
    hasKey (buildNormMap cols) (normalize_column_name c) = true :=
  buildNormMap_aux_hasKey cols [] _ (Or.inr ⟨c, h, rfl⟩)

theorem lookupNorm_isSome_of_hasKey {m : List (String × String)} {k : String}
    (h : hasKey m k = true) : ∃ v, lookupNorm m k = some v := by
  rcases List.any_eq_true.1 h with ⟨q, hq, hqk⟩
  have : (m.find? (fun p => p.1 == k)).isSome := List.find?_isSome.2 ⟨q, hq, hqk⟩
  rcases Option.isSome_iff_exists.1 this with ⟨p, hp⟩
  exact ⟨p.2, by simp [lookupNorm, hp]⟩

theorem lookupNorm_some_mem {m : List (String × String)} {k v : String}
    (h : lookupNorm m k = some v) : ∃ p ∈ m, p.1 = k ∧ p.2 = v := by
  unfold lookupNorm at h
  cases hf : m.find? (fun p => p.1 == k) with
  | none => rw [hf] at h; simp at h
  | some p =>
    rw [hf] at h
    exact ⟨p, List.mem_of_find?_eq_some hf, by simpa using List.find?_some hf,
      by simpa using h⟩

/-- C4 (Column Resolver): `find_column` compares names after normalization
(strip, lowercase, delete non-alphanumerics); a result is always an actual
column matching a candidate exactly or (when `allowContains`) by substring;
an exact normalized match guarantees an exact result; and `none` is
returned exactly when no candidate matches under these rules. -/
theorem C4_column_resolver (cols cands : List String) (b : Bool) :
    (∀ c, find_column cols cands b = some c →
      c ∈ cols ∧
      ((∃ cand ∈ cands, normalize_column_name cand = normalize_column_name c) ∨
       (b = true ∧ ∃ cand ∈ cands,
         containsSub (normalize_column_name cand).data (normalize_column_name c).data = true))) ∧
    ((∃ cand ∈ cands, ∃ col ∈ cols,
        normalize_column_name cand = normalize_column_name col) →
      ∃ c, find_column cols cands b = some c ∧ c ∈ cols ∧
        ∃ cand ∈ cands, normalize_column_name cand = normalize_column_name c) ∧
    (find_column cols cands b = none ↔
      ((¬∃ cand ∈ cands, ∃ col ∈ cols,
          normalize_column_name cand = normalize_column_name col) ∧
       (b = true → ¬∃ col ∈ cols, ∃ cand ∈ cands,
         containsSub (normalize_column_name cand).data (normalize_column_name col).data = true))) := by
  have hexact : ∀ c, (cands.findSome? (fun cand =>
      lookupNorm (buildNormMap cols) (normalize_column_name cand))) = some c →
      c ∈ cols ∧ ∃ cand ∈ cands, normalize_column_name cand = normalize_column_name c := by
    intro c h
    rcases List.exists_of_findSome?_eq_some h with ⟨cand, hcand, hl⟩
    rcases lookupNorm_some_mem hl with ⟨p, hpmem, hpk, hpv⟩
    have hm := buildNormMap_mem hpmem
    refine ⟨hpv ▸ hm.1, cand, hcand, ?_⟩
    rw [hpk, hpv] at hm
    exact hm.2.symm
  have hexact_tot : (∃ cand ∈ cands, ∃ col ∈ cols,
      normalize_column_name cand = normalize_column_name col) →
      ∃ c, (cands.findSome? (fun cand =>
        lookupNorm (buildNormMap cols) (normalize_column_name cand))) = some c := by
    rintro ⟨cand, hcand, col, hcol, heq⟩
    rcases lookupNorm_isSome_of_hasKey (heq ▸ buildNormMap_hasKey hcol) with ⟨v, hv⟩
    cases hf : cands.findSome? (fun cand =>
        lookupNorm (buildNormMap cols) (normalize_column_name cand)) with
    | some c => exact ⟨c, rfl⟩
    | none =>
      have := (List.findSome?_eq_none_iff.1 hf) cand hcand
      rw [this] at hv
      exact absurd hv (by simp)
  have hcont : ∀ c, ((buildNormMap cols).findSome? (fun p =>
      if cands.any (fun cand => containsSub (normalize_column_name cand).data p.1.data)
      then some p.2 else none)) = some c →
      c ∈ cols ∧ ∃ cand ∈ cands,
        containsSub (normalize_column_name cand).data (normalize_column_name c).data = true := by
    intro c h
    rcases List.exists_of_findSome?_eq_some h with ⟨p, hpmem, hp⟩
    have hm := buildNormMap_mem hpmem
    by_cases hc : cands.any (fun cand =>
        containsSub (normalize_column_name cand).data p.1.data) = true
    · rw [if_pos hc] at hp
      rcases List.any_eq_true.1 hc with ⟨cand, hcand, hsub⟩
      have hpc : p.2 = c := by simpa using hp
      subst hpc
      exact ⟨hm.1, cand, hcand, by rw [hm.2]; exact hsub⟩
    · rw [if_neg (by simpa using hc)] at hp
      simp at hp
  have hcont_tot : (∃ col ∈ cols, ∃ cand ∈ cands,
      containsSub (normalize_column_name cand).data (normalize_column_name col).data = true) →
      ∃ c, ((buildNormMap cols).findSome? (fun p =>
        if cands.any (fun cand => containsSub (normalize_column_name cand).data p.1.data)
        then some p.2 else none)) = some c := by
    rintro ⟨col, hcol, cand, hcand, hsub⟩
    rcases lookupNorm_isSome_of_hasKey (buildNormMap_hasKey hcol) with ⟨v, hv⟩
    rcases lookupNorm_some_mem hv with ⟨p, hpmem, hpk, hpv⟩
    cases hf : (buildNormMap cols).findSome? (fun p =>
        if cands.any (fun cand => containsSub (normalize_column_name cand).data p.1.data)
        then some p.2 else none) with
    | some c => exact ⟨c, rfl⟩
    | none =>
      have hnone := (List.findSome?_eq_none_iff.1 hf) p hpmem
      rw [if_pos (List.any_eq_true.2 ⟨cand, hcand, by rw [hpk]; exact hsub⟩)] at hnone
      exact absurd hnone (by simp)
  constructor
  · intro c h
    unfold find_column at h
    cases hf : cands.findSome? (fun cand =>
        lookupNorm (buildNormMap cols) (normalize_column_name cand)) with
    | some c0 =>
      rw [hf] at h
      have hc0 : c0 = c := by simpa using h
      subst hc0
      exact ⟨(hexact c0 hf).1, Or.inl (hexact c0 hf).2⟩
    | none =>
      rw [hf] at h
      cases b with
      | false => simp at h
      | true =>
        rw [if_pos rfl] at h
        exact ⟨(hcont c h).1, Or.inr ⟨rfl, (hcont c h).2⟩⟩
  constructor
  · intro hex
    rcases hexact_tot hex with ⟨c, hc⟩
    refine ⟨c, ?_, (hexact c hc).1, (hexact c hc).2⟩
    unfold find_column
    rw [hc]
  · constructor
    · intro h
      unfold find_column at h
      cases hf : cands.findSome? (fun cand =>
          lookupNorm (buildNormMap cols) (normalize_column_name cand)) with
      | some c0 => rw [hf] at h; simp at h
      | none =>
        rw [hf] at h
        constructor
        · rintro hex
          rcases hexact_tot hex with ⟨c, hc⟩
          rw [hc] at hf
          simp at hf
        · intro hb hcontex
          subst hb
          rw [if_pos rfl] at h
          rcases hcont_tot hcontex with ⟨c, hc⟩
          rw [hc] at h
          simp at h
    · rintro ⟨hnex, hncont⟩
      unfold find_column
      cases hf : cands.findSome? (fun cand =>
          lookupNorm (buildNormMap cols) (normalize_column_name cand)) with
      | some c0 =>
        exact absurd ⟨(hexact c0 hf).2.choose, (hexact c0 hf).2.choose_spec.1,
          c0, (hexact c0 hf).1, (hexact c0 hf).2.choose_spec.2⟩ hnex
      | none =>
        cases b with
        | false => simp
        | true =>
          rw [if_pos rfl]
          cases hg : (buildNormMap cols).findSome? (fun p =>
              if cands.any (fun cand =>
                containsSub (normalize_column_name cand).data p.1.data)
              then some p.2 else none) with
          | none => rfl
          | some c0 =>
            exact absurd ⟨c0, (hcont c0 hg).1, (hcont c0 hg).2.choose,
              (hcont c0 hg).2.choose_spec.1, (hcont c0 hg).2.choose_spec.2⟩
              (hncont rfl)

/-- Witness for C4: on columns `["Term Code", "Price $"]` the candidate
`"TermCode"` resolves exactly to `"Term Code"`, an actual column. -/
theorem C4_column_resolver_witness :
    find_column ["Term Code", "Price $"] ["TermCode"] false = some "Term Code" ∧
    ("Term Code" ∈ (["Term Code", "Price $"] : List String) ∧
      ((∃ cand ∈ (["TermCode"] : List String),
          normalize_column_name cand = normalize_column_name "Term Code") ∨
       (false = true ∧ ∃ cand ∈ (["TermCode"] : List String),
          containsSub (normalize_column_name cand).data
            (normalize_column_name "Term Code").data = true))) :=
  ⟨by decide,
   (C4_column_resolver ["Term Code", "Price $"] ["TermCode"] false).1 "Term Code" (by decide)⟩

theorem isPrefixL_iff : ∀ a b : List Char, isPrefixL a b = true ↔ a <+: b := by
  intro a
  induction a with
  | nil => intro b; simp [isPrefixL]
  | cons c t ih =>
    intro b
    cases b with
    | nil => simp [isPrefixL]
    | cons d u =>
      simp only [isPrefixL, Bool.and_eq_true, beq_iff_eq, List.cons_prefix_cons]
      exact and_congr Iff.rfl (ih u)

theorem isSuffixL_iff {a l : List Char} : isSuffixL a l = true ↔ a <:+ l := by
  unfold isSuffixL
  rw [isPrefixL_iff]
  exact List.reverse_prefix

theorem containsSub_iff {pat : List Char} : ∀ {l : List Char},
    containsSub pat l = true ↔ pat <:+: l := by
  intro l
  induction l with
  | nil =>
    rw [show containsSub pat [] = isPrefixL pat [] from rfl, isPrefixL_iff]
    simp
  | cons c t ih =>
    simp only [containsSub, Bool.or_eq_true]
    rw [isPrefixL_iff, ih, List.infix_cons_iff]

theorem dropWhile_eq_self_append {p : Char → Bool} {z : List Char} (t : List Char)
    (hz : z.dropWhile p = z) (hne : z ≠ []) : (z ++ t).dropWhile p = z ++ t := by
  cases z with
  | nil => exact absurd rfl hne
  | cons c z1 =>
    have hpc : ¬p c = true := by
      intro hb
      rw [List.dropWhile_cons_of_pos hb] at hz
      have h1 := congrArg List.length hz
      have h2 := (List.dropWhile_suffix (l := z1) p).sublist.length_le
      simp only [List.length_cons] at h1
      omega
    rw [List.cons_append, List.dropWhile_cons_of_neg hpc,
      ← List.cons_append]

theorem pyStripL_self_dropWhile {z : List Char} (h : pyStripL z = z) :
    z.dropWhile pyWsChar = z := by
  have h1 := (List.dropWhile_suffix (l := z) pyWsChar).sublist
  apply h1.eq_of_length
  have h2 := congrArg List.length h
  unfold pyStripL at h2
  simp only [List.length_reverse] at h2
  have h3 := (List.dropWhile_suffix (l := (z.dropWhile pyWsChar).reverse)
    pyWsChar).sublist.length_le
  simp only [List.length_reverse] at h3
  have h4 := h1.length_le
  omega

theorem pyStripL_append_token {z tok : List Char}
    (hz : pyStripL z = z) (hne : z ≠ []) (htne : tok ≠ [])
    (htok : tok.reverse.dropWhile pyWsChar = tok.reverse) :
    pyStripL (z ++ tok) = z ++ tok := by
  unfold pyStripL
  rw [dropWhile_eq_self_append tok (pyStripL_self_dropWhile hz) hne,
    List.reverse_append,
    dropWhile_eq_self_append z.reverse htok (by simpa using htne),
    ← List.reverse_append, List.reverse_reverse]

theorem suffix_eq_of_length {a b m : List Char} (ha : a <:+ m) (hb : b <:+ m)
    (hlen : a.length = b.length) : a = b := by
  obtain ⟨p, hp⟩ := ha
  obtain ⟨q, hq⟩ := hb
  rw [← hq] at hp
  have hl : p.length = q.length := by
    have h1 := congrArg List.length hp
    simp only [List.length_append] at h1
    omega
  exact (List.append_inj hp hl).2

theorem infix_append_split {a x y : List Char} (h : a <:+: x ++ y) :
    a <:+: x ∨ a <:+: y ∨
      ∃ k, 0 < k ∧ k < a.length ∧ a.take k <:+ x ∧ a.drop k <+: y := by
  obtain ⟨s, t, hst⟩ := h
  have hpre : a <+: (x ++ y).drop s.length := by
    rw [← hst, List.append_assoc, List.drop_left]
    exact ⟨t, rfl⟩
  rw [List.drop_append_eq_append_drop] at hpre
  by_cases hsx : x.length ≤ s.length
  · rw [List.drop_eq_nil_of_le hsx, List.nil_append] at hpre
    right; left
    obtain ⟨t2, ht2⟩ := hpre
    refine ⟨y.take (s.length - x.length), t2, ?_⟩
    rw [List.append_assoc, ht2, List.take_append_drop]
  · push_neg at hsx
    have hune : x.drop s.length ≠ [] := by
      intro hnil
      have h1 := congrArg List.length hnil
      simp only [List.length_drop, List.length_nil] at h1
      omega
    have hy0 : s.length - x.length = 0 := by omega
    rw [hy0, List.drop_zero] at hpre
    by_cases hau : a.length ≤ (x.drop s.length).length
    · left
      have heq := List.prefix_iff_eq_take.1 hpre
      rw [List.take_append_eq_append_take, Nat.sub_eq_zero_of_le hau,
        List.take_zero, List.append_nil] at heq
      have ha2 : a <+: x.drop s.length := by
        rw [heq]; exact List.take_prefix _ _
      obtain ⟨t3, ht3⟩ := ha2
      refine ⟨x.take s.length, t3, ?_⟩
      rw [List.append_assoc, ht3, List.take_append_drop]
    · push_neg at hau
      have heq := List.prefix_iff_eq_take.1 hpre
      rw [List.take_append_eq_append_take,
        List.take_of_length_le (Nat.le_of_lt hau)] at heq
      right; right
      refine ⟨(x.drop s.length).length, List.length_pos.2 hune, by omega, ?_, ?_⟩
      · rw [heq, List.take_left]
        exact List.drop_suffix _ _
      · rw [heq, List.drop_left]
        exact List.take_prefix _ _

theorem containsSub_append_right {pat t : List Char} (z : List Char)
    (h : containsSub pat t = true) : containsSub pat (z ++ t) = true := by
  rw [containsSub_iff] at h ⊢
  obtain ⟨s1, s2, hs⟩ := h
  exact ⟨z ++ s1, s2, by rw [← hs]; simp [List.append_assoc]⟩

theorem not_containsSub_append {pat tokL : List Char} (z : List Char)
    (hz : containsSub pat z = false)
    (htok : containsSub pat tokL = false)
    (hcross : ∀ k, 0 < k → k < pat.length → ¬(pat.drop k <+: tokL)) :
    containsSub pat (z ++ tokL) = false := by
  by_contra hb
  have hb2 : containsSub pat (z ++ tokL) = true := by
    cases h : containsSub pat (z ++ tokL) with
    | false => exact absurd h hb
    | true => rfl
  rcases infix_append_split (containsSub_iff.1 hb2) with h | h | ⟨k, hk0, hkl, _, hky⟩
  · rw [containsSub_iff.2 h] at hz; exact Bool.noConfusion hz
  · rw [containsSub_iff.2 h] at htok; exact Bool.noConfusion htok
  · exact hcross k hk0 hkl hky

theorem no_cross_low_med : ∀ k, 0 < k → k < 15 →
    ¬("Low Load Factor".data.drop k <+: " Medium Load Factor".data) := by
  intro k h1 h2
  rw [← isPrefixL_iff]
  interval_cases k <;> decide

theorem no_cross_low_high : ∀ k, 0 < k → k < 15 →
    ¬("Low Load Factor".data.drop k <+: " High Load Factor".data) := by
  intro k h1 h2
  rw [← isPrefixL_iff]
  interval_cases k <;> decide

theorem no_cross_med_high : ∀ k, 0 < k → k < 18 →
    ¬("Medium Load Factor".data.drop k <+: " High Load Factor".data) := by
  intro k h1 h2
  rw [← isPrefixL_iff]
  interval_cases k <;> decide

theorem parse_zone_core_low (zd : List Char) :
    parse_zone_core (zd ++ " Low Load Factor".data) = ⟨zd⟩ := by
  unfold parse_zone_core
  rw [if_pos (isSuffixL_iff.2 (List.suffix_append _ _))]
  have hlen : (zd ++ " Low Load Factor".data).length = zd.length + 16 := by
    rw [List.length_append]; rfl
  rw [hlen, Nat.add_sub_cancel, List.take_left]

theorem parse_zone_core_med (zd : List Char) :
    parse_zone_core (zd ++ " Medium Load Factor".data) = ⟨zd⟩ := by
  unfold parse_zone_core
  have hlow : isSuffixL " Low Load Factor".data
      (zd ++ " Medium Load Factor".data) = false := by
    cases hb : isSuffixL " Low Load Factor".data (zd ++ " Medium Load Factor".data) with
    | false => rfl
    | true =>
      exfalso
      have h1 := isSuffixL_iff.1 hb
      have h2 : "dium Load Factor".data <:+ zd ++ " Medium Load Factor".data :=
        (isSuffixL_iff.1 (by decide)).trans (List.suffix_append _ _)
      exact absurd (suffix_eq_of_length h1 h2 (by decide)) (by decide)
  rw [if_neg (by simp [hlow]), if_pos (isSuffixL_iff.2 (List.suffix_append _ _))]
  have hlen : (zd ++ " Medium Load Factor".data).length = zd.length + 19 := by
    rw [List.length_append]; rfl
  rw [hlen, Nat.add_sub_cancel, List.take_left]

theorem parse_zone_core_high (zd : List Char) :
    parse_zone_core (zd ++ " High Load Factor".data) = ⟨zd⟩ := by
  unfold parse_zone_core
  have hlow : isSuffixL " Low Load Factor".data
      (zd ++ " High Load Factor".data) = false := by
    cases hb : isSuffixL " Low Load Factor".data (zd ++ " High Load Factor".data) with
    | false => rfl
    | true =>
      exfalso
      have h1 := isSuffixL_iff.1 hb
      have h2 : "High Load Factor".data <:+ zd ++ " High Load Factor".data :=
        (isSuffixL_iff.1 (by decide)).trans (List.suffix_append _ _)
      exact absurd (suffix_eq_of_length h1 h2 (by decide)) (by decide)
  have hmed : isSuffixL " Medium Load Factor".data
      (zd ++ " High Load Factor".data) = false := by
    cases hb : isSuffixL " Medium Load Factor".data (zd ++ " High Load Factor".data) with
    | false => rfl
    | true =>
      exfalso
      have h1 := isSuffixL_iff.1 hb
      have h2 : " High Load Factor".data <:+ zd ++ " High Load Factor".data :=
        List.suffix_append _ _
      have h3 := List.suffix_of_suffix_length_le h2 h1 (by decide)
      exact absurd (isSuffixL_iff.2 h3) (by decide)
  rw [if_neg (by simp [hlow]), if_neg (by simp [hmed]),
    if_pos (isSuffixL_iff.2 (List.suffix_append _ _))]
  have hlen : (zd ++ " High Load Factor".data).length = zd.length + 17 := by
    rw [List.length_append]; rfl
  rw [hlen, Nat.add_sub_cancel, List.take_left]

theorem parse_lf_core_low (zd : List Char) :
    parse_lf_core (zd ++ " Low Load Factor".data) = "LOW" := by
  unfold parse_lf_core
  rw [if_pos (containsSub_append_right zd (by decide))]

theorem parse_lf_core_med (zd : List Char)
    (hz : containsSub "Low Load Factor".data zd = false) :
    parse_lf_core (zd ++ " Medium Load Factor".data) = "MED" := by
  unfold parse_lf_core
  have h1 : containsSub "Low Load Factor".data
      (zd ++ " Medium Load Factor".data) = false :=
    not_containsSub_append zd hz (by decide) no_cross_low_med
  rw [if_neg (by simp [h1]), if_pos (containsSub_append_right zd (by decide))]

theorem parse_lf_core_high (zd : List Char)
    (hzl : containsSub "Low Load Factor".data zd = false)
    (hzm : containsSub "Medium Load Factor".data zd = false) :
    parse_lf_core (zd ++ " High Load Factor".data) = "HIGH" := by
  unfold parse_lf_core
  have h1 : containsSub "Low Load Factor".data
      (zd ++ " High Load Factor".data) = false :=
    not_containsSub_append zd hzl (by decide) no_cross_low_high
  have h2 : containsSub "Medium Load Factor".data
      (zd ++ " High Load Factor".data) = false :=
    not_containsSub_append zd hzm (by decide) no_cross_med_high
  rw [if_neg (by simp [h1]), if_neg (by simp [h2]),
    if_pos (containsSub_append_right zd (by decide))]

theorem parse_zone_core_self (s : List Char)
    (h1 : containsSub "Low Load Factor".data s = false)
    (h2 : containsSub "Medium Load Factor".data s = false)
    (h3 : containsSub "High Load Factor".data s = false) :
    parse_zone_core s = ⟨s⟩ := by
  have hsuf : ∀ (w : List Char) (c : Char), containsSub w s = false →
      isSuffixL (c :: w) s = false := by
    intro w c hw
    cases hb : isSuffixL (c :: w) s with
    | false => rfl
    | true =>
      exfalso
      have hsf := isSuffixL_iff.1 hb
      have hws : w <:+ s := List.IsSuffix.trans ⟨[c], rfl⟩ hsf
      rw [containsSub_iff.2 hws.isInfix] at hw
      exact Bool.noConfusion hw
  have ha : isSuffixL " Low Load Factor".data s = false :=
    hsuf "Low Load Factor".data ' ' h1
  have hb : isSuffixL " Medium Load Factor".data s = false :=
    hsuf "Medium Load Factor".data ' ' h2
  have hc : isSuffixL " High Load Factor".data s = false :=
    hsuf "High Load Factor".data ' ' h3
  unfold parse_zone_core
  rw [if_neg (by simp [ha]), if_neg (by simp [hb]), if_neg (by simp [hc])]

theorem parse_lf_core_self (s : List Char)
    (h1 : containsSub "Low Load Factor".data s = false)
    (h2 : containsSub "Medium Load Factor".data s = false)
    (h3 : containsSub "High Load Factor".data s = false) :
    parse_lf_core s = "" := by
  unfold parse_lf_core
  rw [if_neg (by simp [h1]), if_neg (by simp [h2]), if_neg (by simp [h3])]

theorem parse_zone_vStr (t : String) :
    parse_zone_from_description (.vStr t) = parse_zone_core (pyStripL t.data) := by
  unfold parse_zone_from_description
  rw [show pyFalsy (.vStr t) = (t == "") from rfl]
  cases hb : (t == "") with
  | true =>
    have ht : t = "" := by simpa using hb
    subst ht
    rfl
  | false => rfl

theorem parse_lf_vStr (t : String) :
    parse_load_factor_from_description (.vStr t) = parse_lf_core (pyStripL t.data) := by
  unfold parse_load_factor_from_description
  rw [show pyFalsy (.vStr t) = (t == "") from rfl]
  cases hb : (t == "") with
  | true =>
    have ht : t = "" := by simpa using hb
    subst ht
    rfl
  | false => rfl

theorem append_tok_ne_empty (z tok : String) (h : tok ≠ "") : z ++ tok ≠ "" := by
  intro he
  apply h
  apply String.ext
  have h1 := congrArg String.data he
  rw [String.data_append] at h1
  exact (List.append_eq_nil.1 h1).2

/-- C5 counterexample: the round trip fails as stated.  `" A"` has no
trailing whitespace (its reversed character list starts non-whitespace, as
witnessed by the `dropWhile` identity), yet the zone parsed from
`" A" + " Low Load Factor"` is `"A"`, not `" A"`; `"Low Load Factor A"`
has no trailing whitespace, yet its `" Medium Load Factor"` description
parses to load factor `"LOW"`, not `"MED"`; and for `z = ""` the zone
parsed from `"" + " Low Load Factor"` is `"Low Load Factor"`, not `""`. -/
theorem C5_counterexample :
    ((" A".data.reverse.dropWhile pyWsChar = " A".data.reverse) ∧
     parse_zone_from_description (.vStr (" A" ++ " Low Load Factor")) = "A" ∧
     "A" ≠ " A") ∧
    (("Low Load Factor A".data.reverse.dropWhile pyWsChar
        = "Low Load Factor A".data.reverse) ∧
     parse_load_factor_from_description
       (.vStr ("Low Load Factor A" ++ " Medium Load Factor")) = "LOW" ∧
     "LOW" ≠ "MED") ∧
    (parse_zone_from_description (.vStr ("" ++ " Low Load Factor")) = "Low Load Factor" ∧
     "Low Load Factor" ≠ "") :=
  ⟨⟨by decide, by decide, by decide⟩, ⟨by decide, by decide, by decide⟩,
   by decide, by decide⟩

/-- C5 (amended): for every nonempty string `z` with no leading or trailing
whitespace that does not contain any of the three load-factor phrases,
appending `" Low Load Factor"` parses back to zone `z` with load `"LOW"`
(and correspondingly `"MED"`, `"HIGH"`); and every stripped string
containing none of the three phrases parses to itself with load `""`. -/
theorem C5_zone_load_roundtrip :
    (∀ z : String, z ≠ "" → pyStrip z = z →
      (∀ tok ∈ LOAD_FACTOR_WORDS, containsSub tok.data z.data = false) →
      ((parse_zone_from_description (.vStr (z ++ " Low Load Factor")) = z ∧
        parse_load_factor_from_description (.vStr (z ++ " Low Load Factor")) = "LOW") ∧
       (parse_zone_from_description (.vStr (z ++ " Medium Load Factor")) = z ∧
        parse_load_factor_from_description (.vStr (z ++ " Medium Load Factor")) = "MED") ∧
       (parse_zone_from_description (.vStr (z ++ " High Load Factor")) = z ∧
        parse_load_factor_from_description (.vStr (z ++ " High Load Factor")) = "HIGH"))) ∧
    (∀ s : String, pyStrip s = s →
      (∀ tok ∈ LOAD_FACTOR_WORDS, containsSub tok.data s.data = false) →
      parse_zone_from_description (.vStr s) = s ∧
      parse_load_factor_from_description (.vStr s) = "") := by
  constructor
  · intro z hne hz hno
    have hzl := hno "Low Load Factor" (by simp [LOAD_FACTOR_WORDS])
    have hzm := hno "Medium Load Factor" (by simp [LOAD_FACTOR_WORDS])
    have hdne : z.data ≠ [] := fun hd => hne (String.ext hd)
    have hzd : pyStripL z.data = z.data := congrArg String.data hz
    refine ⟨⟨?_, ?_⟩, ⟨?_, ?_⟩, ⟨?_, ?_⟩⟩
    · rw [parse_zone_vStr, String.data_append,
        pyStripL_append_token hzd hdne (by decide) (by decide),
        parse_zone_core_low]
    · rw [parse_lf_vStr, String.data_append,
        pyStripL_append_token hzd hdne (by decide) (by decide),
        parse_lf_core_low]
    · rw [parse_zone_vStr, String.data_append,
        pyStripL_append_token hzd hdne (by decide) (by decide),
        parse_zone_core_med]
    · rw [parse_lf_vStr, String.data_append,
        pyStripL_append_token hzd hdne (by decide) (by decide),
        parse_lf_core_med z.data hzl]
    · rw [parse_zone_vStr, String.data_append,
        pyStripL_append_token hzd hdne (by decide) (by decide),
        parse_zone_core_high]
    · rw [parse_lf_vStr, String.data_append,
        pyStripL_append_token hzd hdne (by decide) (by decide),
        parse_lf_core_high z.data hzl hzm]
  · intro s hs hno
    have hsl := hno "Low Load Factor" (by simp [LOAD_FACTOR_WORDS])
    have hsm := hno "Medium Load Factor" (by simp [LOAD_FACTOR_WORDS])
    have hsh := hno "High Load Factor" (by simp [LOAD_FACTOR_WORDS])
    have hsd : pyStripL s.data = s.data := congrArg String.data hs
    constructor
    · rw [parse_zone_vStr, hsd, parse_zone_core_self s.data hsl hsm hsh]
    · rw [parse_lf_vStr, hsd, parse_lf_core_self s.data hsl hsm hsh]

/-- Witness for C5 at `z = "HOUSTON"`: the Medium description round-trips
to zone `"HOUSTON"` and load `"MED"`. -/
theorem C5_zone_load_roundtrip_witness :
    parse_zone_from_description (.vStr ("HOUSTON" ++ " Medium Load Factor")) = "HOUSTON" ∧
    parse_load_factor_from_description
      (.vStr ("HOUSTON" ++ " Medium Load Factor")) = "MED" :=
  (C5_zone_load_roundtrip.1 "HOUSTON" (by decide) (by decide) (by decide)).2.1

theorem term_to_int_mem {v : Value} {t : Int} (h : term_to_int v = some t) :
    t ∈ TARGET_TERMS := by
  unfold term_to_int at h
  split at h
  · split at h
    · rename_i hc
      injection h with h2
      subst h2
      simpa using hc
    · exact absurd h (by simp)
  · split at h
    · split at h
      · rename_i hc
        injection h with h2
        subst h2
        simpa using hc
      · exact absurd h (by simp)
    · exact absurd h (by simp)

theorem masterTransform_term_mem (sc : List String) (toDate : Value → Value)
    (today : Value) (df : DF) :
    ∀ row ∈ (masterTransform sc toDate today df).rows,
      ∃ t, row.getD 6 .vNone = .vInt t ∧ t ∈ TARGET_TERMS := by
  intro row hrow
  simp only [masterTransform] at hrow
  split at hrow
  · simp at hrow
  · split at hrow
    · simp at hrow
    · split at hrow
      · simp at hrow
      · rcases List.mem_filterMap.1 hrow with ⟨i, _, hf⟩
        split at hf
        · split at hf
          · rename_i t heq
            injection hf with hf
            subst hf
            exact ⟨t, rfl, term_to_int_mem heq⟩
          · exact absurd hf (by simp)
        · exact absurd hf (by simp)

/-- C3 (Schema Mapper): both mappers always return a frame whose columns
are exactly the 17 master columns in order, and every produced row carries
a `Term` in `TARGET_TERMS = {12, 24, 36, 48, 60}` (rows whose term does not
resolve into the set are dropped by the final `notna` filter). -/
theorem C3_schema_mapper (toDate : Value → Value) (today : Value) (df : DF) :
    (transform_to_master_format toDate today df).cols = MASTER_COLS ∧
    (hda_matrix_to_master_cols toDate today df).cols = MASTER_COLS ∧
    (∀ row ∈ (transform_to_master_format toDate today df).rows,
      ∃ t, row.getD 6 .vNone = .vInt t ∧ t ∈ TARGET_TERMS) ∧
    (∀ row ∈ (hda_matrix_to_master_cols toDate today df).rows,
      ∃ t, row.getD 6 .vNone = .vInt t ∧ t ∈ TARGET_TERMS) :=
  ⟨rfl, rfl, masterTransform_term_mem start_candidates_t toDate today df,
   masterTransform_term_mem start_candidates_h toDate today df⟩

/-- Witness for C3: on the one-row frame `dfC3` the mapper produces
`rowC3`, whose `Term` entry is 12. -/
theorem C3_schema_mapper_witness :
    rowC3 ∈ (transform_to_master_format (fun _ => .vNone) .vNone dfC3).rows ∧
    ∃ t, rowC3.getD 6 .vNone = .vInt t ∧ t ∈ TARGET_TERMS :=
  ⟨by decide,
   (C3_schema_mapper (fun _ => .vNone) .vNone dfC3).2.2.1 rowC3 (by decide)⟩

/-- C10 (atomicity on save failure): when the destination workbook is
locked (`PermissionError` on save), both `appender.py main` and
`append_l_aa` leave the on-disk destination exactly unchanged — all cell
mutation happens in memory and the single save call is the only disk
write, so the append can be retried by rerunning. -/
theorem C10_atomic_save (strToDate : String → Option Rat) (wsSrc wsDst : Ws) :
    appender_main true wsSrc wsDst = wsDst ∧
    append_l_aa strToDate true wsSrc wsDst = wsDst := by
  constructor
  · by_cases h : (gather_source_rows wsSrc).isEmpty <;> simp [appender_main, h]
  · by_cases h : (gather_source_rows wsSrc).isEmpty <;> simp [append_l_aa, h]

theorem setVal_cells (ws : Ws) (r c : Nat) (v : Value) (r' c' : Nat) :
    (setVal ws r c v).cells r' c' =
      if r' = r ∧ c' = c then { ws.cells r' c' with val := v } else ws.cells r' c' := rfl

theorem setFmt_cells (ws : Ws) (r c : Nat) (fmt : String) (r' c' : Nat) :
    (setFmt ws r c fmt).cells r' c' =
      if r' = r ∧ c' = c then { ws.cells r' c' with numFmt := fmt } else ws.cells r' c' := rfl

theorem setAlignRight_cells (ws : Ws) (r c : Nat) (r' c' : Nat) :
    (setAlignRight ws r c).cells r' c' =
      if r' = r ∧ c' = c then { ws.cells r' c' with alignRight := true }
      else ws.cells r' c' := rfl

theorem setVal_cells_ne {ws : Ws} {r c : Nat} {v : Value} {r' c' : Nat}
    (h : ¬(r' = r ∧ c' = c)) : (setVal ws r c v).cells r' c' = ws.cells r' c' := by
  rw [setVal_cells, if_neg h]

theorem setFmt_cells_ne {ws : Ws} {r c : Nat} {fmt : String} {r' c' : Nat}
    (h : ¬(r' = r ∧ c' = c)) : (setFmt ws r c fmt).cells r' c' = ws.cells r' c' := by
  rw [setFmt_cells, if_neg h]

theorem setAlignRight_cells_ne {ws : Ws} {r c : Nat} {r' c' : Nat}
    (h : ¬(r' = r ∧ c' = c)) : (setAlignRight ws r c).cells r' c' = ws.cells r' c' := by
  rw [setAlignRight_cells, if_neg h]

theorem setVal_val_at (ws : Ws) (r c : Nat) (v : Value) :
    ((setVal ws r c v).cells r c).val = v := by
  rw [setVal_cells, if_pos ⟨rfl, rfl⟩]

theorem setVal_numFmt (ws : Ws) (r c : Nat) (v : Value) (r' c' : Nat) :
    ((setVal ws r c v).cells r' c').numFmt = (ws.cells r' c').numFmt := by
  rw [setVal_cells]; split <;> rfl

theorem setVal_align (ws : Ws) (r c : Nat) (v : Value) (r' c' : Nat) :
    ((setVal ws r c v).cells r' c').alignRight = (ws.cells r' c').alignRight := by
  rw [setVal_cells]; split <;> rfl

theorem setFmt_val (ws : Ws) (r c : Nat) (fmt : String) (r' c' : Nat) :
    ((setFmt ws r c fmt).cells r' c').val = (ws.cells r' c').val := by
  rw [setFmt_cells]; split <;> rfl

theorem setFmt_align (ws : Ws) (r c : Nat) (fmt : String) (r' c' : Nat) :
    ((setFmt ws r c fmt).cells r' c').alignRight = (ws.cells r' c').alignRight := by
  rw [setFmt_cells]; split <;> rfl

theorem setFmt_numFmt_at (ws : Ws) (r c : Nat) (fmt : String) :
    ((setFmt ws r c fmt).cells r c).numFmt = fmt := by
  rw [setFmt_cells, if_pos ⟨rfl, rfl⟩]

theorem setAlignRight_val (ws : Ws) (r c : Nat) (r' c' : Nat) :
    ((setAlignRight ws r c).cells r' c').val = (ws.cells r' c').val := by
  rw [setAlignRight_cells]; split <;> rfl

theorem setAlignRight_numFmt (ws : Ws) (r c : Nat) (r' c' : Nat) :
    ((setAlignRight ws r c).cells r' c').numFmt = (ws.cells r' c').numFmt := by
  rw [setAlignRight_cells]; split <;> rfl

theorem setAlignRight_align_mono {ws : Ws} {r c r' c' : Nat}
    (h : (ws.cells r' c').alignRight = true) :
    ((setAlignRight ws r c).cells r' c').alignRight = true := by
  rw [setAlignRight_cells]; split <;> simp [h]

theorem applyFmtCols_cells_ne_row (row : Nat) (l : List Nat) :
    ∀ (ws : Ws) (r' c' : Nat), r' ≠ row →
      (applyFmtCols row ws l).cells r' c' = ws.cells r' c' := by
  induction l with
  | nil => intro ws r' c' _; rfl
  | cons c t ih =>
    intro ws r' c' h
    unfold applyFmtCols
    rw [ih _ r' c' h]
    split
    · rw [setAlignRight_cells_ne (fun hc => h hc.1),
        setFmt_cells_ne (fun hc => h hc.1)]
    · rw [setFmt_cells_ne (fun hc => h hc.1)]

theorem applyFmtCols_val (row : Nat) (l : List Nat) :
    ∀ (ws : Ws) (r' c' : Nat),
      ((applyFmtCols row ws l).cells r' c').val = (ws.cells r' c').val := by
  induction l with
  | nil => intro ws r' c'; rfl
  | cons c t ih =>
    intro ws r' c'
    unfold applyFmtCols
    rw [ih]
    split
    · rw [setAlignRight_val, setFmt_val]
    · rw [setFmt_val]

theorem applyFmtCols_numFmt_notmem (row : Nat) (l : List Nat) :
    ∀ (ws : Ws) (r' c' : Nat), c' ∉ l →
      ((applyFmtCols row ws l).cells r' c').numFmt = (ws.cells r' c').numFmt := by
  induction l with
  | nil => intro ws r' c' _; rfl
  | cons c t ih =>
    intro ws r' c' h
    unfold applyFmtCols
    rw [ih _ r' c' (fun hm => h (List.mem_cons_of_mem c hm))]
    have hcc : c' ≠ c := fun he => h (he ▸ List.mem_cons_self c t)
    split
    · rw [setAlignRight_numFmt, setFmt_cells_ne (fun hc => hcc hc.2)]
    · rw [setFmt_cells_ne (fun hc => hcc hc.2)]

theorem applyFmtCols_numFmt_mem (row : Nat) (l : List Nat) :
    ∀ (ws : Ws) (c' : Nat), c' ∈ l → l.Nodup →
      ((applyFmtCols row ws l).cells row c').numFmt = masterFormat c' := by
  induction l with
  | nil => intro ws c' h _; simp at h
  | cons c t ih =>
    intro ws c' h hnd
    rcases List.mem_cons.1 h with h1 | h1
    · subst h1
      have hnt : c' ∉ t := (List.nodup_cons.1 hnd).1
      unfold applyFmtCols
      rw [applyFmtCols_numFmt_notmem row t _ row c' hnt]
      split
      · rw [setAlignRight_numFmt, setFmt_numFmt_at]
      · rw [setFmt_numFmt_at]
    · exact ih _ c' h1 (List.nodup_cons.1 hnd).2

theorem applyFmtCols_align_preserved (row : Nat) (l : List Nat) :
    ∀ (ws : Ws) (r' c' : Nat), (ws.cells r' c').alignRight = true →
      ((applyFmtCols row ws l).cells r' c').alignRight = true := by
  induction l with
  | nil => intro ws r' c' h; exact h
  | cons c t ih =>
    intro ws r' c' h
    unfold applyFmtCols
    apply ih
    split
    · exact setAlignRight_align_mono (by rw [setFmt_align]; exact h)
    · rw [setFmt_align]; exact h

theorem applyFmtCols_align6 (row : Nat) (l : List Nat) :
    ∀ (ws : Ws), 6 ∈ l →
      ((applyFmtCols row ws l).cells row 6).alignRight = true := by
  induction l with
  | nil => intro ws h; simp at h
  | cons c t ih =>
    intro ws h
    rcases List.mem_cons.1 h with h1 | h1
    · subst h1
      unfold applyFmtCols
      apply applyFmtCols_align_preserved
      rw [if_pos rfl, setAlignRight_cells, if_pos ⟨rfl, rfl⟩]
    · exact ih _ h1

theorem apply_master_formats_cells_ne_row {ws : Ws} {row r' c' : Nat} (h : r' ≠ row) :
    (apply_master_formats ws row).cells r' c' = ws.cells r' c' :=
  applyFmtCols_cells_ne_row row _ ws r' c' h

theorem apply_master_formats_val (ws : Ws) (row r' c' : Nat) :
    ((apply_master_formats ws row).cells r' c').val = (ws.cells r' c').val :=
  applyFmtCols_val row _ ws r' c'

theorem apply_master_formats_numFmt (ws : Ws) (row : Nat) {c' : Nat}
    (h1 : 1 ≤ c') (h2 : c' ≤ 17) :
    ((apply_master_formats ws row).cells row c').numFmt = masterFormat c' :=
  applyFmtCols_numFmt_mem row _ ws c'
    (List.mem_range'_1.2 ⟨h1, by omega⟩) (List.nodup_range' 1 17)

theorem apply_master_formats_align6 (ws : Ws) (row : Nat) :
    ((apply_master_formats ws row).cells row 6).alignRight = true :=
  applyFmtCols_align6 row _ ws (by decide)

theorem writeVals_cells_ne (row : Nat) :
    ∀ (l : List Value) (ws : Ws) (col r' c' : Nat), r' ≠ row ∨ c' < col →
      (writeVals row ws col l).cells r' c' = ws.cells r' c' := by
  intro l
  induction l with
  | nil => intro ws col r' c' _; rfl
  | cons v t ih =>
    intro ws col r' c' h
    unfold writeVals
    rw [ih (setVal ws row col v) (col + 1) r' c'
        (by rcases h with h | h
            · exact Or.inl h
            · exact Or.inr (by omega))]
    exact setVal_cells_ne (by
      rcases h with h | h
      · exact fun hc => h hc.1
      · exact fun hc => by omega)

theorem writeVals_val_at (row : Nat) :
    ∀ (l : List Value) (ws : Ws) (col k : Nat), k < l.length →
      ((writeVals row ws col l).cells row (col + k)).val = l.getD k .vNone := by
  intro l
  induction l with
  | nil => intro ws col k hk; simp at hk
  | cons v t ih =>
    intro ws col k hk
    unfold writeVals
    cases k with
    | zero =>
      simp only [Nat.add_zero, List.getD_cons_zero]
      rw [writeVals_cells_ne row t _ (col + 1) row col (Or.inr (by omega)),
        setVal_val_at]
    | succ k =>
      simp only [List.getD_cons_succ]
      rw [show col + (k + 1) = (col + 1) + k by omega,
        ih (setVal ws row col v) (col + 1) k (by simpa using hk)]

theorem writeVals_numFmt (row : Nat) :
    ∀ (l : List Value) (ws : Ws) (col r' c' : Nat),
      ((writeVals row ws col l).cells r' c').numFmt = (ws.cells r' c').numFmt := by
  intro l
  induction l with
  | nil => intro ws col r' c'; rfl
  | cons v t ih =>
    intro ws col r' c'
    unfold writeVals
    rw [ih, setVal_numFmt]

theorem writeVals_align (row : Nat) :
    ∀ (l : List Value) (ws : Ws) (col r' c' : Nat),
      ((writeVals row ws col l).cells r' c').alignRight = (ws.cells r' c').alignRight := by
  intro l
  induction l with
  | nil => intro ws col r' c'; rfl
  | cons v t ih =>
    intro ws col r' c'
    unfold writeVals
    rw [ih, setVal_align]

theorem writeHeaderVals_cells_ne (df1 : DF) (rv : List Value) (row : Nat) :
    ∀ (hl : List String) (ws : Ws) (col r' c' : Nat), r' ≠ row ∨ c' < col →
      (writeHeaderVals df1 rv row ws col hl).cells r' c' = ws.cells r' c' := by
  intro hl
  induction hl with
  | nil => intro ws col r' c' _; rfl
  | cons hd t ih =>
    intro ws col r' c' h
    unfold writeHeaderVals
    rw [ih _ (col + 1) r' c'
        (by rcases h with h | h
            · exact Or.inl h
            · exact Or.inr (by omega))]
    split
    · exact setVal_cells_ne (by
        rcases h with h | h
        · exact fun hc => h hc.1
        · exact fun hc => by omega)
    · rfl

theorem writeHeaderVals_val_at (df1 : DF) (rv : List Value) (row : Nat) :
    ∀ (hl : List String) (ws : Ws) (col k : Nat), k < hl.length →
      ((writeHeaderVals df1 rv row ws col hl).cells row (col + k)).val =
        if df1.cols.contains (hl.getD k "") then dfGet df1 (hl.getD k "") rv
        else (ws.cells row (col + k)).val := by
  intro hl
  induction hl with
  | nil => intro ws col k hk; simp at hk
  | cons hd t ih =>
    intro ws col k hk
    simp only [writeHeaderVals]
    cases k with
    | zero =>
      simp only [Nat.add_zero, List.getD_cons_zero]
      rw [writeHeaderVals_cells_ne df1 rv row t _ (col + 1) row col
        (Or.inr (by omega))]
      by_cases hcon : df1.cols.contains hd
      · rw [if_pos hcon, if_pos hcon, setVal_val_at]
      · rw [if_neg hcon, if_neg hcon]
    | succ k =>
      simp only [List.getD_cons_succ]
      rw [show col + (k + 1) = (col + 1) + k by omega,
        ih _ (col + 1) k (by simpa using hk)]
      split
      · rfl
      · by_cases hcon : df1.cols.contains hd
        · rw [if_pos hcon, setVal_cells_ne (fun hc => absurd hc.2 (by omega))]
        · rw [if_neg hcon]

theorem writeHeaderVals_numFmt (df1 : DF) (rv : List Value) (row : Nat) :
    ∀ (hl : List String) (ws : Ws) (col r' c' : Nat),
      ((writeHeaderVals df1 rv row ws col hl).cells r' c').numFmt =
        (ws.cells r' c').numFmt := by
  intro hl
  induction hl with
  | nil => intro ws col r' c'; rfl
  | cons hd t ih =>
    intro ws col r' c'
    unfold writeHeaderVals
    rw [ih]
    split
    · rw [setVal_numFmt]
    · rfl

theorem writeHeaderVals_align (df1 : DF) (rv : List Value) (row : Nat) :
    ∀ (hl : List String) (ws : Ws) (col r' c' : Nat),
      ((writeHeaderVals df1 rv row ws col hl).cells r' c').alignRight =
        (ws.cells r' c').alignRight := by
  intro hl
  induction hl with
  | nil => intro ws col r' c'; rfl
  | cons hd t ih =>
    intro ws col r' c'
    unfold writeHeaderVals
    rw [ih]
    split
    · rw [setVal_align]
    · rfl

theorem templateRows_cells_lt (fbr : Nat) (nid : Int) :
    ∀ (l : List (List Value)) (ws : Ws) (i r' c' : Nat), r' < fbr + i →
      (templateRows fbr nid ws i l).cells r' c' = ws.cells r' c' := by
  intro l
  induction l with
  | nil => intro ws i r' c' _; rfl
  | cons vals t ih =>
    intro ws i r' c' h
    simp only [templateRows]
    rw [ih _ (i + 1) r' c' (by omega),
      writeVals_cells_ne _ _ _ _ _ _ (Or.inl (by omega)),
      apply_master_formats_cells_ne_row (by omega),
      setVal_cells_ne (fun hc => absurd hc.1 (by omega))]

theorem templateRows_row_spec (fbr : Nat) (nid : Int) :
    ∀ (l : List (List Value)) (ws : Ws) (i j : Nat), j < l.length →
      (((templateRows fbr nid ws i l).cells (fbr + (i + j)) 1).val
          = .vInt (nid + (i : Int) + (j : Int))) ∧
      (∀ k, k < (l.getD j []).length →
        ((templateRows fbr nid ws i l).cells (fbr + (i + j)) (2 + k)).val
          = (l.getD j []).getD k .vNone) ∧
      (∀ c', 1 ≤ c' → c' ≤ 17 →
        ((templateRows fbr nid ws i l).cells (fbr + (i + j)) c').numFmt
          = masterFormat c') ∧
      ((templateRows fbr nid ws i l).cells (fbr + (i + j)) 6).alignRight = true := by
  intro l
  induction l with
  | nil => intro ws i j hj; simp at hj
  | cons vals t ih =>
    intro ws i j hj
    cases j with
    | zero =>
      simp only [templateRows, Nat.add_zero, List.getD_cons_zero]
      refine ⟨?_, ?_, ?_, ?_⟩
      · rw [templateRows_cells_lt fbr nid t _ (i + 1) _ _ (by omega),
          writeVals_cells_ne _ _ _ _ _ _ (Or.inr (by omega)),
          apply_master_formats_val, setVal_val_at]
        simp
      · intro k hk
        rw [templateRows_cells_lt fbr nid t _ (i + 1) _ _ (by omega),
          writeVals_val_at _ _ _ _ _ hk]
      · intro c' h1 h2
        rw [templateRows_cells_lt fbr nid t _ (i + 1) _ _ (by omega),
          writeVals_numFmt, apply_master_formats_numFmt _ _ h1 h2]
      · rw [templateRows_cells_lt fbr nid t _ (i + 1) _ _ (by omega),
          writeVals_align, apply_master_formats_align6]
    | succ j =>
      have harith : fbr + (i + (j + 1)) = fbr + ((i + 1) + j) := by omega
      have hid : nid + (i : Int) + ((j + 1 : Nat) : Int)
          = nid + ((i + 1 : Nat) : Int) + (j : Int) := by push_cast; ring
      rcases ih (writeVals (fbr + i)
          (apply_master_formats (setVal ws (fbr + i) 1 (.vInt (nid + (i : Int)))) (fbr + i))
          2 vals) (i + 1) j (by simpa using hj) with ⟨h1, h2, h3, h4⟩
      simp only [templateRows, List.getD_cons_succ]
      exact ⟨by rw [harith, hid]; exact h1,
        fun k hk => by rw [harith]; exact h2 k hk,
        fun c' hc1 hc2 => by rw [harith]; exact h3 c' hc1 hc2,
        by rw [harith]; exact h4⟩

theorem aRows_cells_lt (df1 : DF) (fbr : Nat) (nid : Int) :
    ∀ (l : List (List Value)) (ws : Ws) (i r' c' : Nat), r' < fbr + i →
      (aRows df1 fbr nid ws i l).cells r' c' = ws.cells r' c' := by
  intro l
  induction l with
  | nil => intro ws i r' c' _; rfl
  | cons rv t ih =>
    intro ws i r' c' h
    simp only [aRows]
    rw [ih _ (i + 1) r' c' (by omega),
      writeHeaderVals_cells_ne _ _ _ _ _ _ _ _ (Or.inl (by omega)),
      apply_master_formats_cells_ne_row (by omega),
      setVal_cells_ne (fun hc => absurd hc.1 (by omega))]

theorem aRows_row_spec (df1 : DF) (fbr : Nat) (nid : Int) :
    ∀ (l : List (List Value)) (ws : Ws) (i j : Nat), j < l.length →
      (((aRows df1 fbr nid ws i l).cells (fbr + (i + j)) 1).val
          = .vInt (nid + (i : Int) + (j : Int))) ∧
      (∀ k, k < MASTER_HEADERS.length →
        df1.cols.contains (MASTER_HEADERS.getD k "") = true →
        ((aRows df1 fbr nid ws i l).cells (fbr + (i + j)) (2 + k)).val
          = dfGet df1 (MASTER_HEADERS.getD k "") (l.getD j [])) ∧
      (∀ c', 1 ≤ c' → c' ≤ 17 →
        ((aRows df1 fbr nid ws i l).cells (fbr + (i + j)) c').numFmt
          = masterFormat c') ∧
      ((aRows df1 fbr nid ws i l).cells (fbr + (i + j)) 6).alignRight = true := by
  intro l
  induction l with
  | nil => intro ws i j hj; simp at hj
  | cons rv t ih =>
    intro ws i j hj
    cases j with
    | zero =>
      simp only [aRows, Nat.add_zero, List.getD_cons_zero]
      refine ⟨?_, ?_, ?_, ?_⟩
      · rw [aRows_cells_lt df1 fbr nid t _ (i + 1) _ _ (by omega),
          writeHeaderVals_cells_ne _ _ _ _ _ _ _ _ (Or.inr (by omega)),
          apply_master_formats_val, setVal_val_at]
        simp
      · intro k hk hcon
        rw [aRows_cells_lt df1 fbr nid t _ (i + 1) _ _ (by omega),
          writeHeaderVals_val_at _ _ _ _ _ _ _ hk, if_pos hcon]
      · intro c' h1 h2
        rw [aRows_cells_lt df1 fbr nid t _ (i + 1) _ _ (by omega),
          writeHeaderVals_numFmt, apply_master_formats_numFmt _ _ h1 h2]
      · rw [aRows_cells_lt df1 fbr nid t _ (i + 1) _ _ (by omega),
          writeHeaderVals_align, apply_master_formats_align6]
    | succ j =>
      have harith : fbr + (i + (j + 1)) = fbr + ((i + 1) + j) := by omega
      have hid : nid + (i : Int) + ((j + 1 : Nat) : Int)
          = nid + ((i + 1 : Nat) : Int) + (j : Int) := by push_cast; ring
      rcases ih (writeHeaderVals df1 rv (fbr + i)
          (apply_master_formats (setVal ws (fbr + i) 1 (.vInt (nid + (i : Int)))) (fbr + i))
          2 MASTER_HEADERS) (i + 1) j (by simpa using hj) with ⟨h1, h2, h3, h4⟩
      simp only [aRows, List.getD_cons_succ]
      exact ⟨by rw [harith, hid]; exact h1,
        fun k hk hcon => by rw [harith]; exact h2 k hk hcon,
        fun c' hc1 hc2 => by rw [harith]; exact h3 c' hc1 hc2,
        by rw [harith]; exact h4⟩

theorem range'_find?_first {p : Nat → Bool} :
    ∀ (n s r : Nat), (List.range' s n).find? p = some r →
      p r = true ∧ s ≤ r ∧ r < s + n ∧ ∀ j, s ≤ j → j < r → p j = false := by
  intro n
  induction n with
  | zero => intro s r h; simp [List.range'] at h
  | succ n ih =>
    intro s r h
    rw [List.range'_succ] at h
    by_cases hps : p s
    · rw [List.find?_cons_of_pos _ hps] at h
      injection h with h2
      subst h2
      exact ⟨hps, Nat.le_refl s, by omega, fun j hj1 hj2 => by omega⟩
    · rw [List.find?_cons_of_neg _ hps] at h
      rcases ih (s + 1) r h with ⟨h1, h2, h3, h4⟩
      refine ⟨h1, by omega, by omega, fun j hj1 hj2 => ?_⟩
      by_cases hjs : j = s
      · subst hjs
        exact Bool.not_eq_true _ ▸ (by simpa using hps)
      · exact h4 j (by omega) hj2

theorem foldl_max_spec :
    ∀ (l : List Int) (m : Int),
      m ≤ l.foldl (fun a v => if v > a then v else a) m ∧
      (∀ v ∈ l, v ≤ l.foldl (fun a v => if v > a then v else a) m) ∧
      (l.foldl (fun a v => if v > a then v else a) m = m ∨
        l.foldl (fun a v => if v > a then v else a) m ∈ l) := by
  intro l
  induction l with
  | nil => intro m; exact ⟨le_refl m, by simp, Or.inl rfl⟩
  | cons v t ih =>
    intro m
    have hstep : m ≤ (if v > m then v else m) := by split <;> omega
    rcases ih (if v > m then v else m) with ⟨h1, h2, h3⟩
    refine ⟨le_trans hstep h1, ?_, ?_⟩
    · intro w hw
      rcases List.mem_cons.1 hw with hw1 | hw1
      · subst hw1
        exact le_trans (by split <;> omega) h1
      · exact h2 w hw1
    · rcases h3 with h3 | h3
      · rw [List.foldl_cons, h3]
        split
        · exact Or.inr (List.mem_cons_self _ _)
        · exact Or.inl rfl
      · exact Or.inr (List.mem_cons_of_mem v h3)

theorem find_first_blank_row_spec (ws : Ws) :
    ((∃ r, 2 ≤ r ∧ r ≤ ws.maxRow ∧ isEmptyV (ws.cells r 1).val = true) →
      2 ≤ find_first_blank_row ws ∧ find_first_blank_row ws ≤ ws.maxRow ∧
      isEmptyV (ws.cells (find_first_blank_row ws) 1).val = true ∧
      ∀ j, 2 ≤ j → j < find_first_blank_row ws →
        isEmptyV (ws.cells j 1).val = false) ∧
    ((∀ r, 2 ≤ r → r ≤ ws.maxRow → isEmptyV (ws.cells r 1).val = false) →
      find_first_blank_row ws = ws.maxRow + 1) := by
  constructor
  · rintro ⟨r, hr1, hr2, hr3⟩
    cases hf : (List.range' 2 (ws.maxRow - 1)).find?
        (fun r => isEmptyV (ws.cells r 1).val) with
    | some r0 =>
      have heq : find_first_blank_row ws = r0 := by
        unfold find_first_blank_row
        rw [hf]
      rcases range'_find?_first _ _ _ hf with ⟨h1, h2, h3, h4⟩
      rw [heq]
      exact ⟨h2, by omega, by simpa using h1,
        fun j hj1 hj2 => by simpa using h4 j hj1 hj2⟩
    | none =>
      exfalso
      have := List.find?_eq_none.1 hf r (List.mem_range'_1.2 ⟨hr1, by omega⟩)
      simp [hr3] at this
  · intro hall
    cases hf : (List.range' 2 (ws.maxRow - 1)).find?
        (fun r => isEmptyV (ws.cells r 1).val) with
    | some r0 =>
      rcases range'_find?_first _ _ _ hf with ⟨h1, h2, h3, _⟩
      have h1b : isEmptyV (ws.cells r0 1).val = true := by simpa using h1
      rw [hall r0 h2 (by omega)] at h1b
      exact absurd h1b (by simp)
    | none =>
      unfold find_first_blank_row
      rw [hf]

theorem find_first_blank_row_pos (ws : Ws) : 1 ≤ find_first_blank_row ws := by
  cases hf : (List.range' 2 (ws.maxRow - 1)).find?
      (fun r => isEmptyV (ws.cells r 1).val) with
  | some r0 =>
    have heq : find_first_blank_row ws = r0 := by
      unfold find_first_blank_row
      rw [hf]
    rcases range'_find?_first _ _ _ hf with ⟨_, h2, _, _⟩
    omega
  | none =>
    have heq : find_first_blank_row ws = ws.maxRow + 1 := by
      unfold find_first_blank_row
      rw [hf]
    omega

theorem get_next_id_spec (ws : Ws) :
    1 ≤ get_next_id ws ∧
    (∀ v ∈ truncIds ws, v ≤ get_next_id ws - 1) ∧
    (get_next_id ws = 1 ∨ get_next_id ws - 1 ∈ truncIds ws) := by
  unfold get_next_id
  rcases foldl_max_spec (truncIds ws) 0 with ⟨h1, h2, h3⟩
  refine ⟨by omega, fun v hv => by have := h2 v hv; omega, ?_⟩
  rcases h3 with h3 | h3
  · exact Or.inl (by omega)
  · exact Or.inr (by simpa using h3)

/-- C2 counterexample: a destination whose only column-A cell holds the
non-whole float 7.9 — there is no integer-valued cell, so the claim's next
identifier would be 1, but `get_next_id` truncates `int(7.9) = 7` and
returns 8 (`specNextId` is the claim's reading, stated verbatim). -/
theorem C2_counterexample :
    get_next_id wsC2 = 8 ∧ specNextId wsC2 = 1 ∧ (8 : Int) ≠ 1 :=
  ⟨by decide, by decide, by decide⟩

/-- C2 (amended): the append starts at the first row ≥ 2 whose column-A
cell is `None`/`''` (`max_row + 1` when none); the next identifier is one
plus the maximum of the truncations `int(v)` of the numeric (int- or
float-valued) column-A cells of rows `2..max_row` (1 when none); and both
`append_from_template` and `a` assign the consecutive identifiers
`next_id, next_id + 1, …` at rows `first_blank_row, first_blank_row + 1, …`
— one per gathered non-empty source row (for the template path, whose
values land in B..Q in source order) resp. one per DataFrame row. -/
theorem C2_append_engine :
    (∀ ws : Ws,
      ((∃ r, 2 ≤ r ∧ r ≤ ws.maxRow ∧ isEmptyV (ws.cells r 1).val = true) →
        2 ≤ find_first_blank_row ws ∧ find_first_blank_row ws ≤ ws.maxRow ∧
        isEmptyV (ws.cells (find_first_blank_row ws) 1).val = true ∧
        ∀ j, 2 ≤ j → j < find_first_blank_row ws →
          isEmptyV (ws.cells j 1).val = false) ∧
      ((∀ r, 2 ≤ r → r ≤ ws.maxRow → isEmptyV (ws.cells r 1).val = false) →
        find_first_blank_row ws = ws.maxRow + 1)) ∧
    (∀ ws : Ws,
      1 ≤ get_next_id ws ∧
      (∀ v ∈ truncIds ws, v ≤ get_next_id ws - 1) ∧
      (get_next_id ws = 1 ∨ get_next_id ws - 1 ∈ truncIds ws)) ∧
    (∀ (wsSrc : Ws) (srcMap : String → Nat) (headerRow : Nat) (wsDst : Ws) (i : Nat),
      i < (gatherTemplateRows wsSrc srcMap headerRow).length →
      (((append_from_template wsSrc srcMap headerRow wsDst).cells
          (find_first_blank_row wsDst + i) 1).val
        = .vInt (get_next_id wsDst + (i : Int))) ∧
      (∀ k, k < ((gatherTemplateRows wsSrc srcMap headerRow).getD i []).length →
        ((append_from_template wsSrc srcMap headerRow wsDst).cells
            (find_first_blank_row wsDst + i) (2 + k)).val
          = ((gatherTemplateRows wsSrc srcMap headerRow).getD i []).getD k .vNone)) ∧
    (∀ (df : DF) (wsDst : Ws) (i : Nat), i < df.rows.length →
      ((a df wsDst).cells (find_first_blank_row wsDst + i) 1).val
        = .vInt (get_next_id wsDst + (i : Int))) := by
  refine ⟨find_first_blank_row_spec, get_next_id_spec, ?_, ?_⟩
  · intro wsSrc srcMap headerRow wsDst i hi
    simp only [append_from_template]
    rcases templateRows_row_spec (find_first_blank_row wsDst) (get_next_id wsDst)
      (gatherTemplateRows wsSrc srcMap headerRow) wsDst 0 i hi with ⟨h1, h2, _, _⟩
    constructor
    · simpa using h1
    · intro k hk
      simpa using h2 k hk
  · intro df wsDst i hi
    have hne : df.rows.isEmpty = false := by
      cases hrows : df.rows with
      | nil => rw [hrows] at hi; simp at hi
      | cons x xs => simp [hrows]
    have hfbr : ¬(find_first_blank_row wsDst = 0) := by
      have := find_first_blank_row_pos wsDst
      omega
    have hred : a df wsDst = aRows (scaleDaily df) (find_first_blank_row wsDst)
        (get_next_id wsDst) wsDst 0 (scaleDaily df).rows := by
      simp only [a, hne]
      rw [if_neg (by simp), if_neg hfbr]
    rw [hred]
    have hlen : (scaleDaily df).rows.length = df.rows.length := by
      simp [scaleDaily]
    have h := (aRows_row_spec (scaleDaily df) (find_first_blank_row wsDst)
      (get_next_id wsDst) (scaleDaily df).rows wsDst 0 i (by omega)).1
    simpa using h

/-- Witness for C2 at concrete sheets: `wsW2` has its first blank ID row at
3 and next id 6; the template append writes ID 6 there. -/
theorem C2_append_engine_witness :
    0 < (gatherTemplateRows wsSrcW (fun _ => 12) 1).length ∧
    ((append_from_template wsSrcW (fun _ => 12) 1 wsW2).cells
        (find_first_blank_row wsW2 + 0) 1).val
      = .vInt (get_next_id wsW2 + ((0 : Nat) : Int)) ∧
    find_first_blank_row wsW2 = 3 ∧ get_next_id wsW2 = 6 :=
  ⟨by decide,
   (C2_append_engine.2.2.1 wsSrcW (fun _ => 12) 1 wsW2 0 (by decide)).1,
   by decide, by decide⟩

/-- C9 (frame property): both append paths leave the value of every cell in
every row strictly above the chosen insertion row unchanged. -/
theorem C9_frame (wsSrc : Ws) (srcMap : String → Nat) (headerRow : Nat)
    (df : DF) (wsDst : Ws) (r c : Nat) (h : r < find_first_blank_row wsDst) :
    ((append_from_template wsSrc srcMap headerRow wsDst).cells r c).val
      = (wsDst.cells r c).val ∧
    ((a df wsDst).cells r c).val = (wsDst.cells r c).val := by
  constructor
  · simp only [append_from_template]
    rw [templateRows_cells_lt (find_first_blank_row wsDst) (get_next_id wsDst)
      (gatherTemplateRows wsSrc srcMap headerRow) wsDst 0 r c (by omega)]
  · by_cases hne : df.rows.isEmpty
    · simp [a, hne]
    · have hfbr : ¬(find_first_blank_row wsDst = 0) := by
        have := find_first_blank_row_pos wsDst
        omega
      have hne2 : df.rows.isEmpty = false := by simpa using hne
      have hred : a df wsDst = aRows (scaleDaily df) (find_first_blank_row wsDst)
          (get_next_id wsDst) wsDst 0 (scaleDaily df).rows := by
        simp only [a, hne2]
        rw [if_neg (by simp), if_neg hfbr]
      rw [hred, aRows_cells_lt (scaleDaily df) (find_first_blank_row wsDst)
        (get_next_id wsDst) (scaleDaily df).rows wsDst 0 r c (by omega)]

/-- Witness for C9: row 2 of `wsW2` (below it, row 3 is the insertion row)
keeps its value across both appends. -/
theorem C9_frame_witness :
    2 < find_first_blank_row wsW2 ∧
    ((append_from_template wsSrcW (fun _ => 12) 1 wsW2).cells 2 1).val
      = (wsW2.cells 2 1).val ∧
    ((a dfC3 wsW2).cells 2 1).val = (wsW2.cells 2 1).val :=
  ⟨by decide,
   (C9_frame wsSrcW (fun _ => 12) 1 dfC3 wsW2 2 1 (by decide)).1,
   (C9_frame wsSrcW (fun _ => 12) 1 dfC3 wsW2 2 1 (by decide)).2⟩

theorem colIdx_spec :
    ∀ (cols : List String) (h : String), h ∈ cols →
      colIdx cols h < cols.length ∧ cols.getD (colIdx cols h) "" = h := by
  intro cols
  induction cols with
  | nil => intro h hh; simp at hh
  | cons c t ih =>
    intro h hh
    unfold colIdx
    by_cases hc : c = h
    · rw [if_pos hc]
      exact ⟨by simp, by simpa using hc⟩
    · rw [if_neg hc]
      rcases List.mem_cons.1 hh with h1 | h1
      · exact absurd h1.symm hc
      · rcases ih h h1 with ⟨ih1, ih2⟩
        exact ⟨by simpa using ih1, by simpa using ih2⟩

theorem colIdx_ne {cols : List String} {h h2 : String} (hm : h ∈ cols) (hm2 : h2 ∈ cols)
    (hne : h ≠ h2) : colIdx cols h ≠ colIdx cols h2 := by
  intro he
  have e1 := (colIdx_spec cols h hm).2
  have e2 := (colIdx_spec cols h2 hm2).2
  rw [he, e2] at e1
  exact hne e1.symm

theorem scaleRow_getD (j1 j2 : Nat) :
    ∀ (l : List Value) (j k : Nat),
      (scaleRow j1 j2 j l).getD k .vNone =
        if j + k = j1 ∨ j + k = j2 then mul100 (l.getD k .vNone)
        else l.getD k .vNone := by
  intro l
  induction l with
  | nil =>
    intro j k
    show Value.vNone = _
    split
    · rfl
    · rfl
  | cons v t ih =>
    intro j k
    cases k with
    | zero =>
      simp only [scaleRow, List.getD_cons_zero, Nat.add_zero]
    | succ k =>
      simp only [scaleRow, List.getD_cons_succ]
      rw [ih (j + 1) k, show j + 1 + k = j + (k + 1) by omega]

theorem scaleDaily_rows_getD (df : DF) (i : Nat) :
    (scaleDaily df).rows.getD i [] =
      scaleRow (colIdx df.cols "Daily_No_Ruc") (colIdx df.cols "Daily") 0
        (df.rows.getD i []) := by
  show (df.rows.map _).getD i [] = _
  induction df.rows generalizing i with
  | nil => cases i <;> rfl
  | cons r t ih =>
    cases i with
    | zero => rfl
    | succ i => simpa using ih i

theorem dfGet_scaleDaily (df : DF) (hname : String) (row : List Value) :
    dfGet (scaleDaily df) hname (scaleRow (colIdx df.cols "Daily_No_Ruc")
        (colIdx df.cols "Daily") 0 row) =
      if colIdx df.cols hname = colIdx df.cols "Daily_No_Ruc" ∨
          colIdx df.cols hname = colIdx df.cols "Daily" then
        mul100 (dfGet df hname row)
      else dfGet df hname row := by
  show (scaleRow _ _ 0 row).getD (colIdx df.cols hname) .vNone = _
  rw [scaleRow_getD]
  simp only [Nat.zero_add]
  rfl

/-- C7 (implicit price rescaling): `a` persists `Daily_No_Ruc` (column J)
and `Daily` (column L) multiplied by 100 — for int cells `100 * n`, for
float cells `100 * q` — while every other master header present in the
frame is written unscaled. -/
theorem C7_price_rescaling (df : DF) (wsDst : Ws)
    (hDNR : "Daily_No_Ruc" ∈ df.cols) (hD : "Daily" ∈ df.cols)
    (i : Nat) (hi : i < df.rows.length) :
    (((a df wsDst).cells (find_first_blank_row wsDst + i) 10).val
        = mul100 (dfGet df "Daily_No_Ruc" (df.rows.getD i []))) ∧
    (((a df wsDst).cells (find_first_blank_row wsDst + i) 12).val
        = mul100 (dfGet df "Daily" (df.rows.getD i []))) ∧
    (∀ n : Int, dfGet df "Daily_No_Ruc" (df.rows.getD i []) = .vInt n →
      ((a df wsDst).cells (find_first_blank_row wsDst + i) 10).val
        = .vInt (100 * n)) ∧
    (∀ q : Rat, dfGet df "Daily" (df.rows.getD i []) = .vFloat q →
      ((a df wsDst).cells (find_first_blank_row wsDst + i) 12).val
        = .vFloat (100 * q)) ∧
    (∀ hname, hname ∈ MASTER_HEADERS → hname ≠ "Daily_No_Ruc" → hname ≠ "Daily" →
      hname ∈ df.cols →
      ((a df wsDst).cells
          (find_first_blank_row wsDst + i) (2 + colIdx MASTER_HEADERS hname)).val
        = dfGet df hname (df.rows.getD i [])) := by
  have hne : df.rows.isEmpty = false := by
    cases hrows : df.rows with
    | nil => rw [hrows] at hi; simp at hi
    | cons x xs => simp [hrows]
  have hfbr : ¬(find_first_blank_row wsDst = 0) := by
    have := find_first_blank_row_pos wsDst
    omega
  have hred : a df wsDst = aRows (scaleDaily df) (find_first_blank_row wsDst)
      (get_next_id wsDst) wsDst 0 (scaleDaily df).rows := by
    simp only [a, hne]
    rw [if_neg (by simp), if_neg hfbr]
  have hlen : (scaleDaily df).rows.length = df.rows.length := by simp [scaleDaily]
  have hspec := (aRows_row_spec (scaleDaily df) (find_first_blank_row wsDst)
    (get_next_id wsDst) (scaleDaily df).rows wsDst 0 i (by omega)).2.1
  have hcont : ∀ hn : String, hn ∈ df.cols →
      (scaleDaily df).cols.contains hn = true := fun hn hm =>
    List.elem_eq_true_of_mem hm
  have hDNRv : ((a df wsDst).cells (find_first_blank_row wsDst + i) 10).val
      = mul100 (dfGet df "Daily_No_Ruc" (df.rows.getD i [])) := by
    rw [hred]
    have h8 := hspec 8 (by decide) (hcont _ hDNR)
    rw [show MASTER_HEADERS.getD 8 "" = "Daily_No_Ruc" from rfl,
      scaleDaily_rows_getD, dfGet_scaleDaily, if_pos (Or.inl rfl)] at h8
    simpa using h8
  have hDv : ((a df wsDst).cells (find_first_blank_row wsDst + i) 12).val
      = mul100 (dfGet df "Daily" (df.rows.getD i [])) := by
    rw [hred]
    have h10 := hspec 10 (by decide) (hcont _ hD)
    rw [show MASTER_HEADERS.getD 10 "" = "Daily" from rfl,
      scaleDaily_rows_getD, dfGet_scaleDaily, if_pos (Or.inr rfl)] at h10
    simpa using h10
  refine ⟨hDNRv, hDv, ?_, ?_, ?_⟩
  · intro n hn
    rw [hDNRv, hn]
    rfl
  · intro q hq
    rw [hDv, hq]
    rfl
  · intro hname hMH hne1 hne2 hcols
    rw [hred]
    rcases colIdx_spec MASTER_HEADERS hname hMH with ⟨hk1, hk2⟩
    have hk := hspec (colIdx MASTER_HEADERS hname) hk1 (by rw [hk2]; exact hcont _ hcols)
    rw [hk2, scaleDaily_rows_getD, dfGet_scaleDaily,
      if_neg (by
        rintro (hj | hj)
        · exact colIdx_ne hcols hDNR hne1 hj
        · exact colIdx_ne hcols hD hne2 hj)] at hk
    simpa using hk

/-- Witness for C7: a one-row frame with `Daily_No_Ruc = 7`, `Daily = 3`
appended into `wsW2` at row 3 — 700 and 300 land in columns J and L, while
`Term = 12` is written unscaled into column G. -/
theorem C7_price_rescaling_witness :
    "Daily_No_Ruc" ∈ (DF.mk ["Daily_No_Ruc", "Daily", "Term"]
      [[.vInt 7, .vInt 3, .vInt 12]]).cols ∧
    ((a (DF.mk ["Daily_No_Ruc", "Daily", "Term"] [[.vInt 7, .vInt 3, .vInt 12]])
        wsW2).cells (find_first_blank_row wsW2 + 0) 10).val = .vInt (100 * 7) ∧
    ((a (DF.mk ["Daily_No_Ruc", "Daily", "Term"] [[.vInt 7, .vInt 3, .vInt 12]])
        wsW2).cells (find_first_blank_row wsW2 + 0)
        (2 + colIdx MASTER_HEADERS "Term")).val = .vInt 12 :=
  ⟨by decide,
   (C7_price_rescaling (DF.mk ["Daily_No_Ruc", "Daily", "Term"]
      [[.vInt 7, .vInt 3, .vInt 12]]) wsW2 (by decide) (by decide) 0
      (by decide)).2.2.1 7 (by decide),
   (C7_price_rescaling (DF.mk ["Daily_No_Ruc", "Daily", "Term"]
      [[.vInt 7, .vInt 3, .vInt 12]]) wsW2 (by decide) (by decide) 0
      (by decide)).2.2.2.2 "Term" (by decide) (by decide) (by decide) (by decide)⟩

theorem swapOP_short {l : List Value} (h : l.length < 5) : swapOP l = l := by
  unfold swapOP
  rw [if_neg (by omega)]

theorem swapOP_length (l : List Value) : (swapOP l).length = l.length := by
  unfold swapOP
  split <;> simp

theorem swapOP_getD3 {l : List Value} (h : 5 ≤ l.length) :
    (swapOP l).getD 3 .vNone = l.getD 4 .vNone := by
  unfold swapOP
  rw [if_pos h, List.getD_eq_getElem?_getD,
    List.getElem?_set_ne (by omega : (4 : Nat) ≠ 3),
    List.getElem?_set_self (by omega : (3 : Nat) < l.length)]
  rfl

theorem swapOP_getD4 {l : List Value} (h : 5 ≤ l.length) :
    (swapOP l).getD 4 .vNone = l.getD 3 .vNone := by
  unfold swapOP
  rw [if_pos h, List.getD_eq_getElem?_getD,
    List.getElem?_set_self
      (by rw [List.length_set]; omega : (4 : Nat) < (l.set 3 (l.getD 4 .vNone)).length)]
  rfl

theorem swapOP_getD_other {l : List Value} (h : 5 ≤ l.length) (k : Nat)
    (h3 : k ≠ 3) (h4 : k ≠ 4) :
    (swapOP l).getD k .vNone = l.getD k .vNone := by
  unfold swapOP
  rw [if_pos h]
  simp only [List.getD_eq_getElem?_getD,
    List.getElem?_set_ne (fun he => h4 he.symm),
    List.getElem?_set_ne (fun he => h3 he.symm)]

theorem gather_source_rows_length (ws : Ws) :
    ∀ r ∈ gather_source_rows ws, r.length = 16 := by
  intro r hr
  rcases List.mem_filterMap.1 hr with ⟨x, _, hf⟩
  have hf2 : (if ((List.range' 12 16).map (fun c => (ws.cells x c).val)).any
        (fun v => !isEmptyV v) = true then
      some ((List.range' 12 16).map (fun c => (ws.cells x c).val)) else none)
      = some r := hf
  split at hf2
  · injection hf2 with hf2
    subst hf2
    simp
  · exact absurd hf2 (by simp)

theorem gather_source_rows_getD_length {ws : Ws} {i : Nat}
    (hi : i < (gather_source_rows ws).length) :
    ((gather_source_rows ws).getD i []).length = 16 := by
  apply gather_source_rows_length
  rw [List.getD_eq_getElem?_getD, List.getElem?_eq_getElem hi]
  exact List.getElem_mem hi

theorem laaWriteVals_cells_ne (sd : String → Option Rat) (row : Nat) :
    ∀ (l : List Value) (ws : Ws) (col r' c' : Nat), r' ≠ row ∨ c' < col →
      (laaWriteVals sd row ws col l).cells r' c' = ws.cells r' c' := by
  intro l
  induction l with
  | nil => intro ws col r' c' _; rfl
  | cons v t ih =>
    intro ws col r' c' h
    unfold laaWriteVals
    rw [ih _ (col + 1) r' c'
        (by rcases h with h | h
            · exact Or.inl h
            · exact Or.inr (by omega))]
    exact setVal_cells_ne (by
      rcases h with h | h
      · exact fun hc => h hc.1
      · exact fun hc => by omega)

theorem laaWriteVals_val_at (sd : String → Option Rat) (row : Nat) :
    ∀ (l : List Value) (ws : Ws) (col k : Nat), k < l.length →
      ((laaWriteVals sd row ws col l).cells row (col + k)).val
        = convLAA sd (l.getD k .vNone) := by
  intro l
  induction l with
  | nil => intro ws col k hk; simp at hk
  | cons v t ih =>
    intro ws col k hk
    unfold laaWriteVals
    cases k with
    | zero =>
      simp only [Nat.add_zero, List.getD_cons_zero]
      rw [laaWriteVals_cells_ne sd row t _ (col + 1) row col (Or.inr (by omega)),
        setVal_val_at]
    | succ k =>
      simp only [List.getD_cons_succ]
      rw [show col + (k + 1) = (col + 1) + k by omega,
        ih _ (col + 1) k (by simpa using hk)]

theorem appWriteVals_cells_ne (row : Nat) :
    ∀ (l : List Value) (ws : Ws) (col r' c' : Nat), r' ≠ row ∨ c' < col →
      (appWriteVals row ws col l).cells r' c' = ws.cells r' c' := by
  intro l
  induction l with
  | nil => intro ws col r' c' _; rfl
  | cons v t ih =>
    intro ws col r' c' h
    simp only [appWriteVals]
    rw [ih _ (col + 1) r' c'
        (by rcases h with h | h
            · exact Or.inl h
            · exact Or.inr (by omega))]
    have hne : ¬(r' = row ∧ c' = col) := by
      rcases h with h | h
      · exact fun hc => h hc.1
      · exact fun hc => by omega
    split
    · rw [setFmt_cells_ne hne, setVal_cells_ne hne]
    · rw [setVal_cells_ne hne]

theorem appWriteVals_val_at (row : Nat) :
    ∀ (l : List Value) (ws : Ws) (col k : Nat), k < l.length →
      ((appWriteVals row ws col l).cells row (col + k)).val
        = (convSerial (l.getD k .vNone)).1 := by
  intro l
  induction l with
  | nil => intro ws col k hk; simp at hk
  | cons v t ih =>
    intro ws col k hk
    simp only [appWriteVals]
    cases k with
    | zero =>
      simp only [Nat.add_zero, List.getD_cons_zero]
      rw [appWriteVals_cells_ne row t _ (col + 1) row col (Or.inr (by omega))]
      split
      · rw [setFmt_val, setVal_val_at]
      · rw [setVal_val_at]
    | succ k =>
      simp only [List.getD_cons_succ]
      rw [show col + (k + 1) = (col + 1) + k by omega,
        ih _ (col + 1) k (by simpa using hk)]

theorem filtrWriteVals_cells_ne (dstFmt : Nat → String) (row : Nat) :
    ∀ (l : List Value) (ws : Ws) (col r' c' : Nat), r' ≠ row ∨ c' < col →
      (filtrWriteVals dstFmt row ws col l).cells r' c' = ws.cells r' c' := by
  intro l
  induction l with
  | nil => intro ws col r' c' _; rfl
  | cons v t ih =>
    intro ws col r' c' h
    simp only [filtrWriteVals]
    rw [ih _ (col + 1) r' c'
        (by rcases h with h | h
            · exact Or.inl h
            · exact Or.inr (by omega))]
    have hne : ¬(r' = row ∧ c' = col) := by
      rcases h with h | h
      · exact fun hc => h hc.1
      · exact fun hc => by omega
    split
    · rw [setFmt_cells_ne hne, setFmt_cells_ne hne, setVal_cells_ne hne]
    · rw [setFmt_cells_ne hne, setVal_cells_ne hne]

theorem filtrWriteVals_fmt_at (dstFmt : Nat → String) (row : Nat) :
    ∀ (l : List Value) (ws : Ws) (col k : Nat), k < l.length →
      ((filtrWriteVals dstFmt row ws col l).cells row (col + k)).numFmt
        = if (convSerial (l.getD k .vNone)).2 then "mm/dd/yyyy"
          else dstFmt (col + k) := by
  intro l
  induction l with
  | nil => intro ws col k hk; simp at hk
  | cons v t ih =>
    intro ws col k hk
    simp only [filtrWriteVals]
    cases k with
    | zero =>
      simp only [Nat.add_zero, List.getD_cons_zero]
      rw [filtrWriteVals_cells_ne dstFmt row t _ (col + 1) row col (Or.inr (by omega))]
      split
      · rw [setFmt_numFmt_at]
      · rw [setFmt_numFmt_at]
    | succ k =>
      simp only [List.getD_cons_succ]
      rw [show col + (k + 1) = (col + 1) + k by omega,
        ih _ (col + 1) k (by simpa using hk)]

theorem seqWrite_cells_ne {ws : Ws} {r r' c' : Nat} {v : Int} (h : ¬(r' = r ∧ c' = 1)) :
    ((if r = 1 then setVal ws 1 1 (.vInt 1) else setVal ws r 1 (.vInt v)).cells r' c')
      = ws.cells r' c' := by
  split
  · rename_i h1
    exact setVal_cells_ne (fun hc => h ⟨by omega, hc.2⟩)
  · exact setVal_cells_ne h

theorem laaRows_cells_lt (sd : String → Option Rat) (startRow : Nat) :
    ∀ (l : List (List Value)) (ws : Ws) (i r' c' : Nat), r' < startRow + i →
      (laaRows sd startRow ws i l).cells r' c' = ws.cells r' c' := by
  intro l
  induction l with
  | nil => intro ws i r' c' _; rfl
  | cons rv t ih =>
    intro ws i r' c' h
    simp only [laaRows]
    rw [ih _ (i + 1) r' c' (by omega),
      laaWriteVals_cells_ne _ _ _ _ _ _ _ (Or.inl (by omega)),
      apply_master_formats_cells_ne_row (by omega),
      seqWrite_cells_ne (fun hc => by omega)]

theorem laaRows_val (sd : String → Option Rat) (startRow : Nat) :
    ∀ (l : List (List Value)) (ws : Ws) (i j k : Nat), j < l.length →
      k < (swapOP (l.getD j [])).length →
      ((laaRows sd startRow ws i l).cells (startRow + (i + j)) (2 + k)).val
        = convLAA sd ((swapOP (l.getD j [])).getD k .vNone) := by
  intro l
  induction l with
  | nil => intro ws i j k hj _; simp at hj
  | cons rv t ih =>
    intro ws i j k hj hk
    cases j with
    | zero =>
      simp only [laaRows, Nat.add_zero, List.getD_cons_zero] at hk ⊢
      rw [laaRows_cells_lt sd startRow t _ (i + 1) _ _ (by omega),
        laaWriteVals_val_at _ _ _ _ _ _ hk]
    | succ j =>
      have harith : startRow + (i + (j + 1)) = startRow + ((i + 1) + j) := by omega
      simp only [laaRows, List.getD_cons_succ] at hk ⊢
      rw [harith]
      exact ih _ (i + 1) j k (by simpa using hj) hk

theorem appenderRows_cells_lt (startRow : Nat) :
    ∀ (l : List (List Value)) (ws : Ws) (i r' c' : Nat), r' < startRow + i →
      (appenderRows startRow ws i l).cells r' c' = ws.cells r' c' := by
  intro l
  induction l with
  | nil => intro ws i r' c' _; rfl
  | cons rv t ih =>
    intro ws i r' c' h
    simp only [appenderRows]
    rw [ih _ (i + 1) r' c' (by omega),
      appWriteVals_cells_ne _ _ _ _ _ _ (Or.inl (by omega)),
      seqWrite_cells_ne (fun hc => by omega)]

theorem appenderRows_val (startRow : Nat) :
    ∀ (l : List (List Value)) (ws : Ws) (i j k : Nat), j < l.length →
      k < (swapOP (l.getD j [])).length →
      ((appenderRows startRow ws i l).cells (startRow + (i + j)) (2 + k)).val
        = (convSerial ((swapOP (l.getD j [])).getD k .vNone)).1 := by
  intro l
  induction l with
  | nil => intro ws i j k hj _; simp at hj
  | cons rv t ih =>
    intro ws i j k hj hk
    cases j with
    | zero =>
      simp only [appenderRows, Nat.add_zero, List.getD_cons_zero] at hk ⊢
      rw [appenderRows_cells_lt startRow t _ (i + 1) _ _ (by omega),
        appWriteVals_val_at _ _ _ _ _ hk]
    | succ j =>
      have harith : startRow + (i + (j + 1)) = startRow + ((i + 1) + j) := by omega
      simp only [appenderRows, List.getD_cons_succ] at hk ⊢
      rw [harith]
      exact ih _ (i + 1) j k (by simpa using hj) hk

theorem filtrationRows_cells_lt (dstFmt : Nat → String) (startRow : Nat) :
    ∀ (l : List (List Value)) (ws : Ws) (i r' c' : Nat), r' < startRow + i →
      (filtrationRows dstFmt startRow ws i l).cells r' c' = ws.cells r' c' := by
  intro l
  induction l with
  | nil => intro ws i r' c' _; rfl
  | cons rv t ih =>
    intro ws i r' c' h
    simp only [filtrationRows]
    rw [ih _ (i + 1) r' c' (by omega),
      filtrWriteVals_cells_ne _ _ _ _ _ _ _ (Or.inl (by omega)),
      seqWrite_cells_ne (fun hc => by omega)]

theorem filtrationRows_fmt (dstFmt : Nat → String) (startRow : Nat) :
    ∀ (l : List (List Value)) (ws : Ws) (i j k : Nat), j < l.length →
      k < (l.getD j []).length →
      ((filtrationRows dstFmt startRow ws i l).cells (startRow + (i + j)) (2 + k)).numFmt
        = if (convSerial ((l.getD j []).getD k .vNone)).2 then "mm/dd/yyyy"
          else dstFmt (2 + k) := by
  intro l
  induction l with
  | nil => intro ws i j k hj _; simp at hj
  | cons rv t ih =>
    intro ws i j k hj hk
    cases j with
    | zero =>
      simp only [filtrationRows, Nat.add_zero, List.getD_cons_zero] at hk ⊢
      rw [filtrationRows_cells_lt dstFmt startRow t _ (i + 1) _ _ (by omega),
        filtrWriteVals_fmt_at _ _ _ _ _ _ hk]
    | succ j =>
      have harith : startRow + (i + (j + 1)) = startRow + ((i + 1) + j) := by omega
      simp only [filtrationRows, List.getD_cons_succ] at hk ⊢
      rw [harith]
      exact ih _ (i + 1) j k (by simpa using hj) hk

theorem append_l_aa_red (sd : String → Option Rat) (wsSrc wsDst : Ws)
    (hne : (gather_source_rows wsSrc).isEmpty = false) :
    append_l_aa sd false wsSrc wsDst
      = laaRows sd (appendStartRow wsDst) wsDst 0 (gather_source_rows wsSrc) := by
  simp only [append_l_aa, hne, appendStartRow]
  rw [if_neg (by simp), if_neg (by simp)]

theorem appender_main_red (wsSrc wsDst : Ws)
    (hne : (gather_source_rows wsSrc).isEmpty = false) :
    appender_main false wsSrc wsDst
      = appenderRows (appendStartRow wsDst) wsDst 0 (gather_source_rows wsSrc) := by
  simp only [appender_main, hne, appendStartRow]
  rw [if_neg (by simp), if_neg (by simp)]

theorem gather_nonempty_of_lt {wsSrc : Ws} {i : Nat}
    (hi : i < (gather_source_rows wsSrc).length) :
    (gather_source_rows wsSrc).isEmpty = false := by
  cases hrows : gather_source_rows wsSrc with
  | nil => rw [hrows] at hi; simp at hi
  | cons x xs => simp [hrows]

/-- C8 (implicit O/P swap): every gathered L..AA row has exactly 16 values
(so the length-5 guard is always passed, and shorter rows would be written
unswapped); both `append_l_aa` and the standalone `appender.py` write the
source column O value (index 3) into destination column F (6) and the
source column P value (index 4) into destination column E (5), after the
per-value date conversion, while every other index `k` lands in column
`2 + k` unswapped. -/
theorem C8_op_swap (sd : String → Option Rat) (wsSrc wsDst : Ws) :
    (∀ r ∈ gather_source_rows wsSrc, r.length = 16) ∧
    (∀ l : List Value, l.length < 5 → swapOP l = l) ∧
    (∀ i, i < (gather_source_rows wsSrc).length →
      (((append_l_aa sd false wsSrc wsDst).cells (appendStartRow wsDst + i) 6).val
        = convLAA sd (((gather_source_rows wsSrc).getD i []).getD 3 .vNone)) ∧
      (((append_l_aa sd false wsSrc wsDst).cells (appendStartRow wsDst + i) 5).val
        = convLAA sd (((gather_source_rows wsSrc).getD i []).getD 4 .vNone)) ∧
      (∀ k, k < 16 → k ≠ 3 → k ≠ 4 →
        ((append_l_aa sd false wsSrc wsDst).cells
            (appendStartRow wsDst + i) (2 + k)).val
          = convLAA sd (((gather_source_rows wsSrc).getD i []).getD k .vNone))) ∧
    (∀ i, i < (gather_source_rows wsSrc).length →
      (((appender_main false wsSrc wsDst).cells (appendStartRow wsDst + i) 6).val
        = (convSerial (((gather_source_rows wsSrc).getD i []).getD 3 .vNone)).1) ∧
      (((appender_main false wsSrc wsDst).cells (appendStartRow wsDst + i) 5).val
        = (convSerial (((gather_source_rows wsSrc).getD i []).getD 4 .vNone)).1) ∧
      (∀ k, k < 16 → k ≠ 3 → k ≠ 4 →
        ((appender_main false wsSrc wsDst).cells
            (appendStartRow wsDst + i) (2 + k)).val
          = (convSerial (((gather_source_rows wsSrc).getD i []).getD k .vNone)).1)) := by
  refine ⟨gather_source_rows_length wsSrc, fun l h => swapOP_short h, ?_, ?_⟩
  · intro i hi
    have hlen16 := gather_source_rows_getD_length hi
    have h5 : 5 ≤ ((gather_source_rows wsSrc).getD i []).length := by omega
    have hswl : (swapOP ((gather_source_rows wsSrc).getD i [])).length = 16 := by
      rw [swapOP_length]; exact hlen16
    rw [append_l_aa_red sd wsSrc wsDst (gather_nonempty_of_lt hi)]
    refine ⟨?_, ?_, ?_⟩
    · have h := laaRows_val sd (appendStartRow wsDst) (gather_source_rows wsSrc)
        wsDst 0 i 4 hi (by omega)
      rw [swapOP_getD4 h5] at h
      simpa using h
    · have h := laaRows_val sd (appendStartRow wsDst) (gather_source_rows wsSrc)
        wsDst 0 i 3 hi (by omega)
      rw [swapOP_getD3 h5] at h
      simpa using h
    · intro k hk h3 h4
      have h := laaRows_val sd (appendStartRow wsDst) (gather_source_rows wsSrc)
        wsDst 0 i k hi (by omega)
      rw [swapOP_getD_other h5 k h3 h4] at h
      simpa using h
  · intro i hi
    have hlen16 := gather_source_rows_getD_length hi
    have h5 : 5 ≤ ((gather_source_rows wsSrc).getD i []).length := by omega
    have hswl : (swapOP ((gather_source_rows wsSrc).getD i [])).length = 16 := by
      rw [swapOP_length]; exact hlen16
    rw [appender_main_red wsSrc wsDst (gather_nonempty_of_lt hi)]
    refine ⟨?_, ?_, ?_⟩
    · have h := appenderRows_val (appendStartRow wsDst) (gather_source_rows wsSrc)
        wsDst 0 i 4 hi (by omega)
      rw [swapOP_getD4 h5] at h
      simpa using h
    · have h := appenderRows_val (appendStartRow wsDst) (gather_source_rows wsSrc)
        wsDst 0 i 3 hi (by omega)
      rw [swapOP_getD3 h5] at h
      simpa using h
    · intro k hk h3 h4
      have h := appenderRows_val (appendStartRow wsDst) (gather_source_rows wsSrc)
        wsDst 0 i k hi (by omega)
      rw [swapOP_getD_other h5 k h3 h4] at h
      simpa using h

/-- Witness for C8 at a concrete source: the gathered row is
`[12, …, 27]`; column F of the appended row receives the source column O
value 15 and column E the source column P value 16. -/
theorem C8_op_swap_witness :
    0 < (gather_source_rows wsSrcC8).length ∧
    ((append_l_aa (fun _ => none) false wsSrcC8 wsW2).cells
        (appendStartRow wsW2 + 0) 6).val = .vInt 15 ∧
    ((append_l_aa (fun _ => none) false wsSrcC8 wsW2).cells
        (appendStartRow wsW2 + 0) 5).val = .vInt 16 :=
  ⟨by decide,
   (((C8_op_swap (fun _ => none) wsSrcC8 wsW2).2.2.1 0 (by decide)).1).trans (by decide),
   (((C8_op_swap (fun _ => none) wsSrcC8 wsW2).2.2.1 0 (by decide)).2.1).trans (by decide)⟩

theorem filtration_main_red (wsSrc wsDst : Ws)
    (hne : (gather_source_rows wsSrc).isEmpty = false) :
    filtration_main false wsSrc wsDst
      = filtrationRows (filtrFmt wsDst (last_data_row wsDst 50))
          (appendStartRow wsDst) wsDst 0 (gather_source_rows wsSrc) := by
  simp only [filtration_main, hne, appendStartRow]
  rw [if_neg (by simp), if_neg (by simp)]

/-- Counterexample to C6 as stated: in the legacy path (`filtration.py`) a
pasted cell whose source value is already a datetime is NOT forced to a
date display format — it keeps the captured format (`'General'` here),
because the `is_date` branch only fires for int/float serials. -/
theorem C6_counterexample :
    ((filtration_main false wsC6src wsW2).cells 3 2).val = .vDate ratSerial45000 ∧
    ((filtration_main false wsC6src wsW2).cells 3 2).numFmt = "General" ∧
    ("General" : String) ≠ "mm/dd/yyyy" := by
  refine ⟨by decide, by decide, by decide⟩

/-- C6 (format preservation on append, amended): the master path
(`append_from_template` and `a`) gives every appended row the
`MASTER_FORMATS` number formats on columns A..Q — in particular
`'mm-dd-yy'` on B and C and the dollar/number formats on G..Q — and right
alignment on column F; the legacy path (`filtration.py`) gives each pasted
cell the number format captured from the corresponding column of the last
pre-existing data row (`'General'` when the destination was empty), with
`'mm/dd/yyyy'` forced exactly when the source value was an int/float Excel
serial in (20000, 60000) — a cell already holding a datetime keeps the
captured format. -/
theorem C6_format_preservation (wsDst : Ws) :
    (masterFormat 2 = "mm-dd-yy" ∧ masterFormat 3 = "mm-dd-yy" ∧
      masterFormat 11 = "$#,##0.00" ∧ masterFormat 17 = "#,##0") ∧
    (∀ (wsSrc : Ws) (srcMap : String → Nat) (headerRow j : Nat),
      j < (gatherTemplateRows wsSrc srcMap headerRow).length →
      (∀ c, 1 ≤ c → c ≤ 17 →
        ((append_from_template wsSrc srcMap headerRow wsDst).cells
            (find_first_blank_row wsDst + j) c).numFmt = masterFormat c) ∧
      ((append_from_template wsSrc srcMap headerRow wsDst).cells
          (find_first_blank_row wsDst + j) 6).alignRight = true) ∧
    (∀ (df : DF) (j : Nat), j < df.rows.length →
      (∀ c, 1 ≤ c → c ≤ 17 →
        ((a df wsDst).cells (find_first_blank_row wsDst + j) c).numFmt
          = masterFormat c) ∧
      ((a df wsDst).cells (find_first_blank_row wsDst + j) 6).alignRight = true) ∧
    (∀ (wsSrc : Ws) (j k : Nat), j < (gather_source_rows wsSrc).length → k < 16 →
      ((filtration_main false wsSrc wsDst).cells
          (appendStartRow wsDst + j) (2 + k)).numFmt
        = if (convSerial (((gather_source_rows wsSrc).getD j []).getD k .vNone)).2
          then "mm/dd/yyyy"
          else filtrFmt wsDst (last_data_row wsDst 50) (2 + k)) := by
  refine ⟨⟨rfl, rfl, rfl, rfl⟩, ?_, ?_, ?_⟩
  · intro wsSrc srcMap headerRow j hj
    have hspec := templateRows_row_spec (find_first_blank_row wsDst)
      (get_next_id wsDst) (gatherTemplateRows wsSrc srcMap headerRow) wsDst 0 j hj
    constructor
    · intro c h1 h17
      have h := hspec.2.2.1 c h1 h17
      simpa [append_from_template] using h
    · have h := hspec.2.2.2
      simpa [append_from_template] using h
  · intro df j hj
    have hne : df.rows.isEmpty = false := by
      cases hrows : df.rows with
      | nil => rw [hrows] at hj; simp at hj
      | cons x xs => simp [hrows]
    have hfbr : ¬(find_first_blank_row wsDst = 0) := by
      have := find_first_blank_row_pos wsDst
      omega
    have hred : a df wsDst = aRows (scaleDaily df) (find_first_blank_row wsDst)
        (get_next_id wsDst) wsDst 0 (scaleDaily df).rows := by
      simp only [a, hne]
      rw [if_neg (by simp), if_neg hfbr]
    have hlen : (scaleDaily df).rows.length = df.rows.length := by simp [scaleDaily]
    have hspec := aRows_row_spec (scaleDaily df) (find_first_blank_row wsDst)
      (get_next_id wsDst) (scaleDaily df).rows wsDst 0 j (by omega)
    constructor
    · intro c h1 h17
      rw [hred]
      have h := hspec.2.2.1 c h1 h17
      simpa using h
    · rw [hred]
      have h := hspec.2.2.2
      simpa using h
  · intro wsSrc j k hj hk
    have hne : (gather_source_rows wsSrc).isEmpty = false := gather_nonempty_of_lt hj
    rw [filtration_main_red wsSrc wsDst hne]
    have hlen := gather_source_rows_getD_length hj
    have h := filtrationRows_fmt (filtrFmt wsDst (last_data_row wsDst 50))
      (appendStartRow wsDst) (gather_source_rows wsSrc) wsDst 0 j k hj (by omega)
    simpa using h

/-- Witness for C6: a template append paints `'mm-dd-yy'` on column B of
the appended row, and the legacy path forces `'mm/dd/yyyy'` on a cell
whose source value is the int serial 45000. -/
theorem C6_format_preservation_witness :
    0 < (gatherTemplateRows wsSrcW (fun _ => 12) 1).length ∧
    ((append_from_template wsSrcW (fun _ => 12) 1 wsW2).cells
        (find_first_blank_row wsW2 + 0) 2).numFmt = "mm-dd-yy" ∧
    0 < (gather_source_rows wsC6src).length ∧
    ((filtration_main false wsC6src wsW2).cells
        (appendStartRow wsW2 + 0) (2 + 1)).numFmt = "mm/dd/yyyy" :=
  ⟨by decide,
   (((C6_format_preservation wsW2).2.1 wsSrcW (fun _ => 12) 1 0 (by decide)).1 2
      (by decide) (by decide)).trans (by decide),
   by decide,
   ((C6_format_preservation wsW2).2.2.2 wsC6src 0 1 (by decide) (by decide)).trans
     (by decide)⟩
